import Mathlib

/-!
Verification of the geometric core of the tessellation application
(`src/app/page.tsx`): edge extraction (`getShapeEdges`), edge
compatibility (`areEdgesCompatible`), snap resolution (`canTilesSnap`)
and symmetry-mirror generation (`createSymmetryMirrors`).

Numbers are modelled as real numbers; JavaScript division by zero is
modelled by Lean's total division (`x / 0 = 0`).  `Math.random`-based
identifier generation is modelled by an injected supply `ids : Nat →
String` of fresh identifiers, one per `generateId()` call site.
-/

namespace Tess

/-- A planar coordinate, used both as position and as free vector. -/
@[ext] structure Point where
  x : ℝ
  y : ℝ

/-- The closed shape enumeration: triangle, square, hexagon, diamond. -/
inductive ShapeType where
  | triangle
  | square
  | hexagon
  | diamond
deriving DecidableEq

/-- The symmetry-mode enumeration: none, horizontal, vertical, radial. -/
inductive SymmetryMode where
  | none
  | horizontal
  | vertical
  | radial
deriving DecidableEq

/-- The `Tile` interface: a placed, colored, rotatable shape instance.
`isSymmetryMirror` and `originalId` are optional fields in the source. -/
@[ext] structure Tile where
  id : String
  shape : ShapeType
  x : ℝ
  y : ℝ
  rotation : ℝ
  color : String
  isSymmetryMirror : Option Bool := Option.none
  originalId : Option String := Option.none

/-- The `Edge` interface: one polygon side in world space, with length,
midpoint and outward unit normal. -/
@[ext] structure Edge where
  start : Point
  endp : Point
  length : ℝ
  midpoint : Point
  normal : Point

/-- Cosine of the tile rotation, degrees converted to radians. -/
noncomputable def tileCos (t : Tile) : ℝ := Real.cos (t.rotation * Real.pi / 180)

/-- Sine of the tile rotation, degrees converted to radians. -/
noncomputable def tileSin (t : Tile) : ℝ := Real.sin (t.rotation * Real.pi / 180)

/-- The local-to-world `transform` closure of `getShapeEdges`. -/
noncomputable def transform (t : Tile) (localX localY : ℝ) : Point :=
  ⟨t.x + (localX * tileCos t - localY * tileSin t),
   t.y + (localX * tileSin t + localY * tileCos t)⟩

/-- The local-space vertex catalog used in the `switch (tile.shape)` of
`getShapeEdges` (one entry per shape, in source order). -/
def localVertices : ShapeType → List Point
  | .triangle => [⟨0, -30⟩, ⟨25, 15⟩, ⟨-25, 15⟩]
  | .square => [⟨-25, -25⟩, ⟨25, -25⟩, ⟨25, 25⟩, ⟨-25, 25⟩]
  | .hexagon =>
      [⟨50, 0⟩, ⟨25, 43.3⟩, ⟨-25, 43.3⟩, ⟨-50, 0⟩, ⟨-25, -43.3⟩, ⟨25, -43.3⟩]
  | .diamond => [⟨0, -30⟩, ⟨30, 0⟩, ⟨0, 30⟩, ⟨-30, 0⟩]

/-- One iteration of the edge-construction loop of `getShapeEdges`:
builds the edge from `start` to `endp`, orienting the normal away from
`center` (the tile position). -/
noncomputable def mkEdge (center start endp : Point) : Edge :=
  let dx := endp.x - start.x
  let dy := endp.y - start.y
  let length := Real.sqrt (dx * dx + dy * dy)
  let midpoint : Point := ⟨(start.x + endp.x) / 2, (start.y + endp.y) / 2⟩
  let normal0 : Point := ⟨dy / length, -dx / length⟩
  let edgeToCenterX := center.x - midpoint.x
  let edgeToCenterY := center.y - midpoint.y
  let dotProduct := normal0.x * edgeToCenterX + normal0.y * edgeToCenterY
  ⟨start, endp, length, midpoint,
    if dotProduct > 0 then ⟨-normal0.x, -normal0.y⟩ else normal0⟩

/-- The edge-construction loop of `getShapeEdges`: one edge per
consecutive vertex pair `(vertices[i], vertices[(i+1) % n])`. -/
noncomputable def edgesFromVertices (center : Point) (vertices : List Point) : List Edge :=
  List.zipWith (mkEdge center) vertices (vertices.rotate 1)

/-- The function `getShapeEdges`: world-space edges of a placed tile. -/
noncomputable def getShapeEdges (tile : Tile) : List Edge :=
  edgesFromVertices ⟨tile.x, tile.y⟩
    ((localVertices tile.shape).map (fun p => transform tile p.x p.y))

/-- Midpoint-to-midpoint Euclidean distance, as computed (twice) in the
source with `Math.sqrt(Math.pow(..., 2) + Math.pow(..., 2))`. -/
noncomputable def edgeDistance (edge1 edge2 : Edge) : ℝ :=
  Real.sqrt ((edge1.midpoint.x - edge2.midpoint.x) ^ 2 +
    (edge1.midpoint.y - edge2.midpoint.y) ^ 2)

/-- The oracle `areEdgesCompatible`: the four sequential gates
(length match, proximity, opposing normals, parallel directions); the
source returns `false` on the first failing gate, so the result is the
conjunction of the four passing conditions. -/
noncomputable def areEdgesCompatible (edge1 edge2 : Edge) : Prop :=
  let edge1Dir : Point := ⟨edge1.endp.x - edge1.start.x, edge1.endp.y - edge1.start.y⟩
  let edge2Dir : Point := ⟨edge2.endp.x - edge2.start.x, edge2.endp.y - edge2.start.y⟩
  let edge1Len := Real.sqrt (edge1Dir.x * edge1Dir.x + edge1Dir.y * edge1Dir.y)
  let edge2Len := Real.sqrt (edge2Dir.x * edge2Dir.x + edge2Dir.y * edge2Dir.y)
  |edge1.length - edge2.length| ≤ 2 ∧
  edgeDistance edge1 edge2 ≤ 40 ∧
  edge1.normal.x * edge2.normal.x + edge1.normal.y * edge2.normal.y ≤ -(0.9) ∧
  0.9 ≤ |edge1Dir.x / edge1Len * (edge2Dir.x / edge2Len) +
    edge1Dir.y / edge1Len * (edge2Dir.y / edge2Len)|

/-- The mutable `bestSnap` record of `canTilesSnap`. -/
structure BestSnap where
  edge1 : Edge
  edge2 : Edge
  distance : ℝ

/-- The `{ canSnap, snapPosition }` result of `canTilesSnap`. -/
structure SnapResult where
  canSnap : Bool
  snapPosition : Option Point

open Classical in
/-- One iteration of the nested edge-pair loop of `canTilesSnap`:
keep the compatible pair with the smallest midpoint distance. -/
noncomputable def considerPair (bestSnap : Option BestSnap) (edge1 edge2 : Edge) :
    Option BestSnap :=
  if areEdgesCompatible edge1 edge2 then
    let distance := edgeDistance edge1 edge2
    match bestSnap with
    | Option.none => some ⟨edge1, edge2, distance⟩
    | some b => if distance < b.distance then some ⟨edge1, edge2, distance⟩ else some b
  else bestSnap

/-- The resolver `canTilesSnap`: search all edge pairs for the best
compatible match; on success, translate `tile1` so the matched edges'
midpoints coincide, then push 1 unit along `edge2`'s outward normal. -/
noncomputable def canTilesSnap (tile1 tile2 : Tile) : SnapResult :=
  let edges1 := getShapeEdges tile1
  let edges2 := getShapeEdges tile2
  let bestSnap := edges1.foldl
    (fun acc edge1 => edges2.foldl (fun acc2 edge2 => considerPair acc2 edge1 edge2) acc)
    Option.none
  match bestSnap with
  | Option.none => ⟨false, Option.none⟩
  | some b =>
    let offsetX := b.edge2.midpoint.x - b.edge1.midpoint.x
    let offsetY := b.edge2.midpoint.y - b.edge1.midpoint.y
    let separation : ℝ := 1
    let separationX := b.edge2.normal.x * separation
    let separationY := b.edge2.normal.y * separation
    ⟨true, some ⟨tile1.x + offsetX + separationX, tile1.y + offsetY + separationY⟩⟩

/-- Canvas symmetry center, `centerX = 300` in the source. -/
def centerX : ℝ := 300

/-- Canvas symmetry center, `centerY = 300` in the source. -/
def centerY : ℝ := 300

/-- The generator `createSymmetryMirrors` with the ambient
`symmetryMode` made an explicit argument and the `generateId()` calls
served from the injected supply `ids`. -/
def createSymmetryMirrors (symmetryMode : SymmetryMode) (ids : ℕ → String)
    (originalTile : Tile) : List Tile :=
  match symmetryMode with
  | .none => []
  | .horizontal =>
      [{ originalTile with
          id := ids 0
          x := centerX * 2 - originalTile.x
          isSymmetryMirror := some true
          originalId := some originalTile.id }]
  | .vertical =>
      [{ originalTile with
          id := ids 0
          y := centerY * 2 - originalTile.y
          isSymmetryMirror := some true
          originalId := some originalTile.id }]
  | .radial =>
      [{ originalTile with
          id := ids 0
          x := centerX * 2 - originalTile.x
          isSymmetryMirror := some true
          originalId := some originalTile.id },
       { originalTile with
          id := ids 1
          y := centerY * 2 - originalTile.y
          isSymmetryMirror := some true
          originalId := some originalTile.id },
       { originalTile with
          id := ids 2
          x := centerX * 2 - originalTile.x
          y := centerY * 2 - originalTile.y
          isSymmetryMirror := some true
          originalId := some originalTile.id }]

/-- Horizontal reflection through the canvas center (spec §4.5 wording),
used to state the radial-closure property. -/
def reflectH (p : Point) : Point := ⟨centerX * 2 - p.x, p.y⟩

/-- Vertical reflection through the canvas center (spec §4.5 wording),
used to state the radial-closure property. -/
def reflectV (p : Point) : Point := ⟨p.x, centerY * 2 - p.y⟩

/-- Position of a tile as a point. -/
def tilePos (t : Tile) : Point := ⟨t.x, t.y⟩

/-- Translate a point by the vector `d`. -/
def translatePoint (d p : Point) : Point := ⟨p.x + d.x, p.y + d.y⟩

/-- Translate an edge by the vector `d`: endpoints and midpoint shift,
length and normal are unchanged. -/
def translateEdge (d : Point) (e : Edge) : Edge :=
  ⟨translatePoint d e.start, translatePoint d e.endp, e.length,
    translatePoint d e.midpoint, e.normal⟩

/-- Rotation part of a tile's local-to-world transform, applied to a
free vector (no translation). -/
noncomputable def rotVec (t : Tile) (v : Point) : Point :=
  ⟨v.x * tileCos t - v.y * tileSin t, v.x * tileSin t + v.y * tileCos t⟩

/-- The tile's local-to-world transform as a `Point` map. -/
noncomputable def transformP (t : Tile) (p : Point) : Point := transform t p.x p.y

/-- Image of an edge under a tile's rigid placement transform:
endpoints and midpoint move, length is kept, the normal rotates. -/
noncomputable def isoEdge (t : Tile) (e : Edge) : Edge :=
  ⟨transformP t e.start, transformP t e.endp, e.length, transformP t e.midpoint,
    rotVec t e.normal⟩

/-- The same tile placed at the origin with rotation `0`. -/
def baseTile (t : Tile) : Tile := { t with x := 0, y := 0, rotation := 0 }

/-! ### Generic list helpers -/

lemma mem_zipWith {α β γ : Type} {f : α → β → γ} {x : γ} :
    ∀ {as : List α} {bs : List β}, x ∈ List.zipWith f as bs →
      ∃ a b, a ∈ as ∧ b ∈ bs ∧ x = f a b := by
  intro as
  induction as with
  | nil => intro bs h; simp at h
  | cons a as ih =>
    intro bs h
    cases bs with
    | nil => simp at h
    | cons b bs =>
      rw [List.zipWith_cons_cons, List.mem_cons] at h
      rcases h with h | h
      · exact ⟨a, b, by simp, by simp, h⟩
      · rcases ih h with ⟨a2, b2, ha, hb, hx⟩
        exact ⟨a2, b2, by simp [ha], by simp [hb], hx⟩

/-! ### Basic facts about the edge constructor -/

lemma mkEdge_outward (center p q : Point) :
    (mkEdge center p q).normal.x * (center.x - (mkEdge center p q).midpoint.x) +
    (mkEdge center p q).normal.y * (center.y - (mkEdge center p q).midpoint.y) ≤ 0 := by
  unfold mkEdge
  dsimp only
  split_ifs with h
  · dsimp only
    linarith [h]
  · exact le_of_not_lt h

/-! ### Translation equivariance of edge extraction -/

lemma zipWith_map_both {α β γ δ : Type} (f : α → β) (g : β → β → γ) (g2 : α → α → δ)
    (h : δ → γ) (H : ∀ a b, g (f a) (f b) = h (g2 a b)) :
    ∀ (as bs : List α), List.zipWith g (as.map f) (bs.map f) = (List.zipWith g2 as bs).map h := by
  intro as
  induction as with
  | nil => intro bs; simp
  | cons a as ih =>
    intro bs
    cases bs with
    | nil => simp
    | cons b bs => simp [List.zipWith_cons_cons, H, ih]

lemma mkEdge_translate (d c p q : Point) :
    mkEdge ⟨c.x + d.x, c.y + d.y⟩ ⟨p.x + d.x, p.y + d.y⟩ ⟨q.x + d.x, q.y + d.y⟩ =
      translateEdge d (mkEdge c p q) := by
  unfold mkEdge translateEdge translatePoint
  dsimp only
  rw [show q.x + d.x - (p.x + d.x) = q.x - p.x from by ring,
    show q.y + d.y - (p.y + d.y) = q.y - p.y from by ring,
    show c.x + d.x - (p.x + d.x + (q.x + d.x)) / 2 = c.x - (p.x + q.x) / 2 from by ring,
    show c.y + d.y - (p.y + d.y + (q.y + d.y)) / 2 = c.y - (p.y + q.y) / 2 from by ring]
  refine Edge.ext rfl rfl rfl (Point.ext (by ring) (by ring)) rfl

lemma transform_shift (t : Tile) (dx dy lx ly : ℝ) :
    transform { t with x := t.x + dx, y := t.y + dy } lx ly =
      ⟨(transform t lx ly).x + dx, (transform t lx ly).y + dy⟩ := by
  unfold transform tileCos tileSin
  exact Point.ext (by ring) (by ring)

/-- Moving a tile translates every extracted edge accordingly. -/
lemma getShapeEdges_shift (t : Tile) (dx dy : ℝ) :
    getShapeEdges { t with x := t.x + dx, y := t.y + dy } =
      (getShapeEdges t).map (translateEdge ⟨dx, dy⟩) := by
  unfold getShapeEdges edgesFromVertices
  have hmap : (localVertices ({ t with x := t.x + dx, y := t.y + dy } : Tile).shape).map
      (fun p => transform { t with x := t.x + dx, y := t.y + dy } p.x p.y) =
      ((localVertices t.shape).map (fun p => transform t p.x p.y)).map
        (fun p : Point => (⟨p.x + dx, p.y + dy⟩ : Point)) := by
    rw [List.map_map]
    apply List.map_congr_left
    intro p _
    exact transform_shift t dx dy p.x p.y
  rw [hmap, ← List.map_rotate]
  exact zipWith_map_both (fun p : Point => (⟨p.x + dx, p.y + dy⟩ : Point)) _ _ _
    (fun a b => mkEdge_translate ⟨dx, dy⟩ ⟨t.x, t.y⟩ a b) _ _

/-! ### Rotation invariance: the Pythagorean identity -/

lemma tile_pyth (t : Tile) : tileCos t ^ 2 + tileSin t ^ 2 = 1 := by
  unfold tileCos tileSin
  exact Real.cos_sq_add_sin_sq _

/-- The local-to-world transform is an isometry: squared distances of
vertex pairs are preserved. -/
lemma transform_dist_sq (t : Tile) (p q : Point) :
    ((transform t q.x q.y).x - (transform t p.x p.y).x) *
      ((transform t q.x q.y).x - (transform t p.x p.y).x) +
    ((transform t q.x q.y).y - (transform t p.x p.y).y) *
      ((transform t q.x q.y).y - (transform t p.x p.y).y) =
    (q.x - p.x) * (q.x - p.x) + (q.y - p.y) * (q.y - p.y) := by
  unfold transform
  dsimp only
  linear_combination ((q.x - p.x) * (q.x - p.x) + (q.y - p.y) * (q.y - p.y)) * tile_pyth t

/-! ### Every edge of every tile has positive length and a unit normal -/

lemma mkEdge_good (c p q : Point)
    (h : 0 < (q.x - p.x) * (q.x - p.x) + (q.y - p.y) * (q.y - p.y)) :
    0 < (mkEdge c p q).length ∧
      (mkEdge c p q).normal.x ^ 2 + (mkEdge c p q).normal.y ^ 2 = 1 := by
  unfold mkEdge
  dsimp only
  have hL2 : Real.sqrt ((q.x - p.x) * (q.x - p.x) + (q.y - p.y) * (q.y - p.y)) ^ 2 =
      (q.x - p.x) * (q.x - p.x) + (q.y - p.y) * (q.y - p.y) := Real.sq_sqrt h.le
  have hL0 : 0 < Real.sqrt ((q.x - p.x) * (q.x - p.x) + (q.y - p.y) * (q.y - p.y)) :=
    Real.sqrt_pos.mpr h
  refine ⟨hL0, ?_⟩
  split_ifs with hf <;> dsimp only <;> field_simp <;> nlinarith [hL2, hL0]

lemma mkEdge_transform_good (t : Tile) (c p q : Point)
    (h : 0 < (q.x - p.x) * (q.x - p.x) + (q.y - p.y) * (q.y - p.y)) :
    0 < (mkEdge c (transform t p.x p.y) (transform t q.x q.y)).length ∧
      (mkEdge c (transform t p.x p.y) (transform t q.x q.y)).normal.x ^ 2 +
        (mkEdge c (transform t p.x p.y) (transform t q.x q.y)).normal.y ^ 2 = 1 := by
  apply mkEdge_good
  rw [transform_dist_sq]
  exact h

/-- Every edge of every tile (any shape, position, rotation) has
strictly positive length and a unit outward normal. -/
lemma getShapeEdges_good (t : Tile) :
    (getShapeEdges t).Forall
      (fun e => 0 < e.length ∧ e.normal.x ^ 2 + e.normal.y ^ 2 = 1) := by
  obtain ⟨i, s, x, y, r, col, m, o⟩ := t
  unfold getShapeEdges edgesFromVertices
  cases s
  case triangle =>
    simp only [localVertices, List.map_cons, List.map_nil, List.rotate_cons_succ,
      List.rotate_zero, List.cons_append, List.nil_append, List.zipWith_cons_cons,
      List.zipWith_nil_right, List.Forall]
    exact ⟨mkEdge_transform_good _ _ ⟨0, -30⟩ ⟨25, 15⟩ (by norm_num),
      mkEdge_transform_good _ _ ⟨25, 15⟩ ⟨-25, 15⟩ (by norm_num),
      mkEdge_transform_good _ _ ⟨-25, 15⟩ ⟨0, -30⟩ (by norm_num)⟩
  case square =>
    simp only [localVertices, List.map_cons, List.map_nil, List.rotate_cons_succ,
      List.rotate_zero, List.cons_append, List.nil_append, List.zipWith_cons_cons,
      List.zipWith_nil_right, List.Forall]
    exact ⟨mkEdge_transform_good _ _ ⟨-25, -25⟩ ⟨25, -25⟩ (by norm_num),
      mkEdge_transform_good _ _ ⟨25, -25⟩ ⟨25, 25⟩ (by norm_num),
      mkEdge_transform_good _ _ ⟨25, 25⟩ ⟨-25, 25⟩ (by norm_num),
      mkEdge_transform_good _ _ ⟨-25, 25⟩ ⟨-25, -25⟩ (by norm_num)⟩
  case hexagon =>
    simp only [localVertices, List.map_cons, List.map_nil, List.rotate_cons_succ,
      List.rotate_zero, List.cons_append, List.nil_append, List.zipWith_cons_cons,
      List.zipWith_nil_right, List.Forall]
    exact ⟨mkEdge_transform_good _ _ ⟨50, 0⟩ ⟨25, 43.3⟩ (by norm_num),
      mkEdge_transform_good _ _ ⟨25, 43.3⟩ ⟨-25, 43.3⟩ (by norm_num),
      mkEdge_transform_good _ _ ⟨-25, 43.3⟩ ⟨-50, 0⟩ (by norm_num),
      mkEdge_transform_good _ _ ⟨-50, 0⟩ ⟨-25, -43.3⟩ (by norm_num),
      mkEdge_transform_good _ _ ⟨-25, -43.3⟩ ⟨25, -43.3⟩ (by norm_num),
      mkEdge_transform_good _ _ ⟨25, -43.3⟩ ⟨50, 0⟩ (by norm_num)⟩
  case diamond =>
    simp only [localVertices, List.map_cons, List.map_nil, List.rotate_cons_succ,
      List.rotate_zero, List.cons_append, List.nil_append, List.zipWith_cons_cons,
      List.zipWith_nil_right, List.Forall]
    exact ⟨mkEdge_transform_good _ _ ⟨0, -30⟩ ⟨30, 0⟩ (by norm_num),
      mkEdge_transform_good _ _ ⟨30, 0⟩ ⟨0, 30⟩ (by norm_num),
      mkEdge_transform_good _ _ ⟨0, 30⟩ ⟨-30, 0⟩ (by norm_num),
      mkEdge_transform_good _ _ ⟨-30, 0⟩ ⟨0, -30⟩ (by norm_num)⟩

/-- The number of extracted edges equals the catalog's vertex count. -/
lemma getShapeEdges_count (t : Tile) :
    (getShapeEdges t).length = (localVertices t.shape).length := by
  unfold getShapeEdges edgesFromVertices
  rw [List.length_zipWith, List.length_rotate, List.length_map, min_self]

/-! ### Concrete evaluation of edges for unrotated tiles -/

/-- Evaluate `mkEdge` in the common case where the raw normal already
points outward (no flip). -/
lemma mkEdge_eval (c p q : Point) (L : ℝ) (mid n : Point)
    (hL : Real.sqrt ((q.x - p.x) * (q.x - p.x) + (q.y - p.y) * (q.y - p.y)) = L)
    (hflip : (q.y - p.y) * (c.x - (p.x + q.x) / 2) -
      (q.x - p.x) * (c.y - (p.y + q.y) / 2) ≤ 0)
    (hmid : (⟨(p.x + q.x) / 2, (p.y + q.y) / 2⟩ : Point) = mid)
    (hn : (⟨(q.y - p.y) / L, -(q.x - p.x) / L⟩ : Point) = n) :
    mkEdge c p q = ⟨p, q, L, mid, n⟩ := by
  unfold mkEdge
  dsimp only
  rw [if_neg, hL, hmid, hn]
  rw [show (q.y - p.y) / Real.sqrt ((q.x - p.x) * (q.x - p.x) + (q.y - p.y) * (q.y - p.y)) *
      (c.x - (p.x + q.x) / 2) +
      -(q.x - p.x) / Real.sqrt ((q.x - p.x) * (q.x - p.x) + (q.y - p.y) * (q.y - p.y)) *
      (c.y - (p.y + q.y) / 2) =
      ((q.y - p.y) * (c.x - (p.x + q.x) / 2) - (q.x - p.x) * (c.y - (p.y + q.y) / 2)) /
        Real.sqrt ((q.x - p.x) * (q.x - p.x) + (q.y - p.y) * (q.y - p.y)) from by ring]
  exact not_lt.mpr (div_nonpos_iff.mpr (Or.inr ⟨hflip, Real.sqrt_nonneg _⟩))

lemma transform_rot0 (t : Tile) (h : t.rotation = 0) (lx ly : ℝ) :
    transform t lx ly = ⟨t.x + lx, t.y + ly⟩ := by
  unfold transform tileCos tileSin
  rw [h]
  rw [show (0 : ℝ) * Real.pi / 180 = 0 from by ring, Real.cos_zero, Real.sin_zero]
  exact Point.ext (by ring) (by ring)

/-- Edges of an axis-aligned square tile at `(x, y)`. -/
lemma edges_square_rot0 (i col : String) (m : Option Bool) (o : Option String) (x y : ℝ) :
    getShapeEdges ⟨i, ShapeType.square, x, y, 0, col, m, o⟩ =
      [⟨⟨x + -25, y + -25⟩, ⟨x + 25, y + -25⟩, 50, ⟨x, y - 25⟩, ⟨0, -1⟩⟩,
       ⟨⟨x + 25, y + -25⟩, ⟨x + 25, y + 25⟩, 50, ⟨x + 25, y⟩, ⟨1, 0⟩⟩,
       ⟨⟨x + 25, y + 25⟩, ⟨x + -25, y + 25⟩, 50, ⟨x, y + 25⟩, ⟨0, 1⟩⟩,
       ⟨⟨x + -25, y + 25⟩, ⟨x + -25, y + -25⟩, 50, ⟨x - 25, y⟩, ⟨-1, 0⟩⟩] := by
  unfold getShapeEdges edgesFromVertices
  simp only [localVertices, List.map_cons, List.map_nil, List.rotate_cons_succ,
    List.rotate_zero, List.cons_append, List.nil_append, List.zipWith_cons_cons,
    List.zipWith_nil_right]
  have ht : ∀ lx ly : ℝ, transform ⟨i, ShapeType.square, x, y, 0, col, m, o⟩ lx ly =
      ⟨x + lx, y + ly⟩ := fun lx ly => transform_rot0 _ rfl lx ly
  simp only [ht]
  rw [mkEdge_eval ⟨x, y⟩ ⟨x + -25, y + -25⟩ ⟨x + 25, y + -25⟩ 50 ⟨x, y - 25⟩ ⟨0, -1⟩
      (by rw [show (x + 25 - (x + -25)) * (x + 25 - (x + -25)) +
          (y + -25 - (y + -25)) * (y + -25 - (y + -25)) = (2500 : ℝ) from by ring,
        show (2500 : ℝ) = 50 ^ 2 from by norm_num, Real.sqrt_sq (by norm_num : (0:ℝ) ≤ 50)])
      (by ring_nf; norm_num)
      (Point.ext (by ring) (by ring)) (Point.ext (by ring) (by norm_num)),
    mkEdge_eval ⟨x, y⟩ ⟨x + 25, y + -25⟩ ⟨x + 25, y + 25⟩ 50 ⟨x + 25, y⟩ ⟨1, 0⟩
      (by rw [show (x + 25 - (x + 25)) * (x + 25 - (x + 25)) +
          (y + 25 - (y + -25)) * (y + 25 - (y + -25)) = (2500 : ℝ) from by ring,
        show (2500 : ℝ) = 50 ^ 2 from by norm_num, Real.sqrt_sq (by norm_num : (0:ℝ) ≤ 50)])
      (by ring_nf; norm_num)
      (Point.ext (by ring) (by ring)) (Point.ext (by norm_num) (by ring)),
    mkEdge_eval ⟨x, y⟩ ⟨x + 25, y + 25⟩ ⟨x + -25, y + 25⟩ 50 ⟨x, y + 25⟩ ⟨0, 1⟩
      (by rw [show (x + -25 - (x + 25)) * (x + -25 - (x + 25)) +
          (y + 25 - (y + 25)) * (y + 25 - (y + 25)) = (2500 : ℝ) from by ring,
        show (2500 : ℝ) = 50 ^ 2 from by norm_num, Real.sqrt_sq (by norm_num : (0:ℝ) ≤ 50)])
      (by ring_nf; norm_num)
      (Point.ext (by ring) (by ring)) (Point.ext (by ring) (by norm_num)),
    mkEdge_eval ⟨x, y⟩ ⟨x + -25, y + 25⟩ ⟨x + -25, y + -25⟩ 50 ⟨x - 25, y⟩ ⟨-1, 0⟩
      (by rw [show (x + -25 - (x + -25)) * (x + -25 - (x + -25)) +
          (y + -25 - (y + 25)) * (y + -25 - (y + 25)) = (2500 : ℝ) from by ring,
        show (2500 : ℝ) = 50 ^ 2 from by norm_num, Real.sqrt_sq (by norm_num : (0:ℝ) ≤ 50)])
      (by ring_nf; norm_num)
      (Point.ext (by ring) (by ring)) (Point.ext (by norm_num) (by ring))]

/-- Edges of an unrotated triangle tile at `(x, y)`. -/
lemma edges_triangle_rot0 (i col : String) (m : Option Bool) (o : Option String) (x y : ℝ) :
    getShapeEdges ⟨i, ShapeType.triangle, x, y, 0, col, m, o⟩ =
      [⟨⟨x + 0, y + -30⟩, ⟨x + 25, y + 15⟩, Real.sqrt 2650, ⟨x + 12.5, y - 7.5⟩, ⟨45 / Real.sqrt 2650, -25 / Real.sqrt 2650⟩⟩,
       ⟨⟨x + 25, y + 15⟩, ⟨x + -25, y + 15⟩, 50, ⟨x, y + 15⟩, ⟨0, 1⟩⟩,
       ⟨⟨x + -25, y + 15⟩, ⟨x + 0, y + -30⟩, Real.sqrt 2650, ⟨x - 12.5, y - 7.5⟩, ⟨-45 / Real.sqrt 2650, -25 / Real.sqrt 2650⟩⟩] := by
  unfold getShapeEdges edgesFromVertices
  simp only [localVertices, List.map_cons, List.map_nil, List.rotate_cons_succ,
    List.rotate_zero, List.cons_append, List.nil_append, List.zipWith_cons_cons,
    List.zipWith_nil_right]
  have ht : ∀ lx ly : ℝ, transform ⟨i, ShapeType.triangle, x, y, 0, col, m, o⟩ lx ly =
      ⟨x + lx, y + ly⟩ := fun lx ly => transform_rot0 _ rfl lx ly
  simp only [ht]
  rw [mkEdge_eval ⟨x, y⟩ ⟨x + 0, y + -30⟩ ⟨x + 25, y + 15⟩ (Real.sqrt 2650) ⟨x + 12.5, y - 7.5⟩
      ⟨45 / Real.sqrt 2650, -25 / Real.sqrt 2650⟩
      (by rw [show (x + 25 - (x + 0)) * (x + 25 - (x + 0)) +
          (y + 15 - (y + -30)) * (y + 15 - (y + -30)) = (2650 : ℝ) from by ring])
      (by ring_nf; norm_num)
      (Point.ext (by ring) (by ring)) (Point.ext (by ring) (by ring)),
    mkEdge_eval ⟨x, y⟩ ⟨x + 25, y + 15⟩ ⟨x + -25, y + 15⟩ 50 ⟨x, y + 15⟩
      ⟨0, 1⟩
      (by rw [show (x + -25 - (x + 25)) * (x + -25 - (x + 25)) +
          (y + 15 - (y + 15)) * (y + 15 - (y + 15)) = (2500 : ℝ) from by ring,
        show (2500 : ℝ) = 50 ^ 2 from by norm_num, Real.sqrt_sq (by norm_num : (0:ℝ) ≤ 50)])
      (by ring_nf; norm_num)
      (Point.ext (by ring) (by ring)) (Point.ext (by ring) (by ring)),
    mkEdge_eval ⟨x, y⟩ ⟨x + -25, y + 15⟩ ⟨x + 0, y + -30⟩ (Real.sqrt 2650) ⟨x - 12.5, y - 7.5⟩
      ⟨-45 / Real.sqrt 2650, -25 / Real.sqrt 2650⟩
      (by rw [show (x + 0 - (x + -25)) * (x + 0 - (x + -25)) +
          (y + -30 - (y + 15)) * (y + -30 - (y + 15)) = (2650 : ℝ) from by ring])
      (by ring_nf; norm_num)
      (Point.ext (by ring) (by ring)) (Point.ext (by ring) (by ring))]

/-- Edges of an unrotated hexagon tile at `(x, y)`. -/
lemma edges_hexagon_rot0 (i col : String) (m : Option Bool) (o : Option String) (x y : ℝ) :
    getShapeEdges ⟨i, ShapeType.hexagon, x, y, 0, col, m, o⟩ =
      [⟨⟨x + 50, y + 0⟩, ⟨x + 25, y + 43.3⟩, Real.sqrt 2499.89, ⟨x + 37.5, y + 21.65⟩, ⟨43.3 / Real.sqrt 2499.89, 25 / Real.sqrt 2499.89⟩⟩,
       ⟨⟨x + 25, y + 43.3⟩, ⟨x + -25, y + 43.3⟩, 50, ⟨x, y + 43.3⟩, ⟨0, 1⟩⟩,
       ⟨⟨x + -25, y + 43.3⟩, ⟨x + -50, y + 0⟩, Real.sqrt 2499.89, ⟨x - 37.5, y + 21.65⟩, ⟨-43.3 / Real.sqrt 2499.89, 25 / Real.sqrt 2499.89⟩⟩,
       ⟨⟨x + -50, y + 0⟩, ⟨x + -25, y + -43.3⟩, Real.sqrt 2499.89, ⟨x - 37.5, y - 21.65⟩, ⟨-43.3 / Real.sqrt 2499.89, -25 / Real.sqrt 2499.89⟩⟩,
       ⟨⟨x + -25, y + -43.3⟩, ⟨x + 25, y + -43.3⟩, 50, ⟨x, y - 43.3⟩, ⟨0, -1⟩⟩,
       ⟨⟨x + 25, y + -43.3⟩, ⟨x + 50, y + 0⟩, Real.sqrt 2499.89, ⟨x + 37.5, y - 21.65⟩, ⟨43.3 / Real.sqrt 2499.89, -25 / Real.sqrt 2499.89⟩⟩] := by
  unfold getShapeEdges edgesFromVertices
  simp only [localVertices, List.map_cons, List.map_nil, List.rotate_cons_succ,
    List.rotate_zero, List.cons_append, List.nil_append, List.zipWith_cons_cons,
    List.zipWith_nil_right]
  have ht : ∀ lx ly : ℝ, transform ⟨i, ShapeType.hexagon, x, y, 0, col, m, o⟩ lx ly =
      ⟨x + lx, y + ly⟩ := fun lx ly => transform_rot0 _ rfl lx ly
  simp only [ht]
  rw [mkEdge_eval ⟨x, y⟩ ⟨x + 50, y + 0⟩ ⟨x + 25, y + 43.3⟩ (Real.sqrt 2499.89) ⟨x + 37.5, y + 21.65⟩
      ⟨43.3 / Real.sqrt 2499.89, 25 / Real.sqrt 2499.89⟩
      (by rw [show (x + 25 - (x + 50)) * (x + 25 - (x + 50)) +
          (y + 43.3 - (y + 0)) * (y + 43.3 - (y + 0)) = (2499.89 : ℝ) from by ring])
      (by ring_nf; norm_num)
      (Point.ext (by ring) (by ring)) (Point.ext (by ring) (by ring)),
    mkEdge_eval ⟨x, y⟩ ⟨x + 25, y + 43.3⟩ ⟨x + -25, y + 43.3⟩ 50 ⟨x, y + 43.3⟩
      ⟨0, 1⟩
      (by rw [show (x + -25 - (x + 25)) * (x + -25 - (x + 25)) +
          (y + 43.3 - (y + 43.3)) * (y + 43.3 - (y + 43.3)) = (2500 : ℝ) from by ring,
        show (2500 : ℝ) = 50 ^ 2 from by norm_num, Real.sqrt_sq (by norm_num : (0:ℝ) ≤ 50)])
      (by ring_nf; norm_num)
      (Point.ext (by ring) (by ring)) (Point.ext (by ring) (by ring)),
    mkEdge_eval ⟨x, y⟩ ⟨x + -25, y + 43.3⟩ ⟨x + -50, y + 0⟩ (Real.sqrt 2499.89) ⟨x - 37.5, y + 21.65⟩
      ⟨-43.3 / Real.sqrt 2499.89, 25 / Real.sqrt 2499.89⟩
      (by rw [show (x + -50 - (x + -25)) * (x + -50 - (x + -25)) +
          (y + 0 - (y + 43.3)) * (y + 0 - (y + 43.3)) = (2499.89 : ℝ) from by ring])
      (by ring_nf; norm_num)
      (Point.ext (by ring) (by ring)) (Point.ext (by ring) (by ring)),
    mkEdge_eval ⟨x, y⟩ ⟨x + -50, y + 0⟩ ⟨x + -25, y + -43.3⟩ (Real.sqrt 2499.89) ⟨x - 37.5, y - 21.65⟩
      ⟨-43.3 / Real.sqrt 2499.89, -25 / Real.sqrt 2499.89⟩
      (by rw [show (x + -25 - (x + -50)) * (x + -25 - (x + -50)) +
          (y + -43.3 - (y + 0)) * (y + -43.3 - (y + 0)) = (2499.89 : ℝ) from by ring])
      (by ring_nf; norm_num)
      (Point.ext (by ring) (by ring)) (Point.ext (by ring) (by ring)),
    mkEdge_eval ⟨x, y⟩ ⟨x + -25, y + -43.3⟩ ⟨x + 25, y + -43.3⟩ 50 ⟨x, y - 43.3⟩
      ⟨0, -1⟩
      (by rw [show (x + 25 - (x + -25)) * (x + 25 - (x + -25)) +
          (y + -43.3 - (y + -43.3)) * (y + -43.3 - (y + -43.3)) = (2500 : ℝ) from by ring,
        show (2500 : ℝ) = 50 ^ 2 from by norm_num, Real.sqrt_sq (by norm_num : (0:ℝ) ≤ 50)])
      (by ring_nf; norm_num)
      (Point.ext (by ring) (by ring)) (Point.ext (by ring) (by ring)),
    mkEdge_eval ⟨x, y⟩ ⟨x + 25, y + -43.3⟩ ⟨x + 50, y + 0⟩ (Real.sqrt 2499.89) ⟨x + 37.5, y - 21.65⟩
      ⟨43.3 / Real.sqrt 2499.89, -25 / Real.sqrt 2499.89⟩
      (by rw [show (x + 50 - (x + 25)) * (x + 50 - (x + 25)) +
          (y + 0 - (y + -43.3)) * (y + 0 - (y + -43.3)) = (2499.89 : ℝ) from by ring])
      (by ring_nf; norm_num)
      (Point.ext (by ring) (by ring)) (Point.ext (by ring) (by ring))]

/-- Edges of an unrotated diamond tile at `(x, y)`. -/
lemma edges_diamond_rot0 (i col : String) (m : Option Bool) (o : Option String) (x y : ℝ) :
    getShapeEdges ⟨i, ShapeType.diamond, x, y, 0, col, m, o⟩ =
      [⟨⟨x + 0, y + -30⟩, ⟨x + 30, y + 0⟩, Real.sqrt 1800, ⟨x + 15, y - 15⟩, ⟨30 / Real.sqrt 1800, -30 / Real.sqrt 1800⟩⟩,
       ⟨⟨x + 30, y + 0⟩, ⟨x + 0, y + 30⟩, Real.sqrt 1800, ⟨x + 15, y + 15⟩, ⟨30 / Real.sqrt 1800, 30 / Real.sqrt 1800⟩⟩,
       ⟨⟨x + 0, y + 30⟩, ⟨x + -30, y + 0⟩, Real.sqrt 1800, ⟨x - 15, y + 15⟩, ⟨-30 / Real.sqrt 1800, 30 / Real.sqrt 1800⟩⟩,
       ⟨⟨x + -30, y + 0⟩, ⟨x + 0, y + -30⟩, Real.sqrt 1800, ⟨x - 15, y - 15⟩, ⟨-30 / Real.sqrt 1800, -30 / Real.sqrt 1800⟩⟩] := by
  unfold getShapeEdges edgesFromVertices
  simp only [localVertices, List.map_cons, List.map_nil, List.rotate_cons_succ,
    List.rotate_zero, List.cons_append, List.nil_append, List.zipWith_cons_cons,
    List.zipWith_nil_right]
  have ht : ∀ lx ly : ℝ, transform ⟨i, ShapeType.diamond, x, y, 0, col, m, o⟩ lx ly =
      ⟨x + lx, y + ly⟩ := fun lx ly => transform_rot0 _ rfl lx ly
  simp only [ht]
  rw [mkEdge_eval ⟨x, y⟩ ⟨x + 0, y + -30⟩ ⟨x + 30, y + 0⟩ (Real.sqrt 1800) ⟨x + 15, y - 15⟩
      ⟨30 / Real.sqrt 1800, -30 / Real.sqrt 1800⟩
      (by rw [show (x + 30 - (x + 0)) * (x + 30 - (x + 0)) +
          (y + 0 - (y + -30)) * (y + 0 - (y + -30)) = (1800 : ℝ) from by ring])
      (by ring_nf; norm_num)
      (Point.ext (by ring) (by ring)) (Point.ext (by ring) (by ring)),
    mkEdge_eval ⟨x, y⟩ ⟨x + 30, y + 0⟩ ⟨x + 0, y + 30⟩ (Real.sqrt 1800) ⟨x + 15, y + 15⟩
      ⟨30 / Real.sqrt 1800, 30 / Real.sqrt 1800⟩
      (by rw [show (x + 0 - (x + 30)) * (x + 0 - (x + 30)) +
          (y + 30 - (y + 0)) * (y + 30 - (y + 0)) = (1800 : ℝ) from by ring])
      (by ring_nf; norm_num)
      (Point.ext (by ring) (by ring)) (Point.ext (by ring) (by ring)),
    mkEdge_eval ⟨x, y⟩ ⟨x + 0, y + 30⟩ ⟨x + -30, y + 0⟩ (Real.sqrt 1800) ⟨x - 15, y + 15⟩
      ⟨-30 / Real.sqrt 1800, 30 / Real.sqrt 1800⟩
      (by rw [show (x + -30 - (x + 0)) * (x + -30 - (x + 0)) +
          (y + 0 - (y + 30)) * (y + 0 - (y + 30)) = (1800 : ℝ) from by ring])
      (by ring_nf; norm_num)
      (Point.ext (by ring) (by ring)) (Point.ext (by ring) (by ring)),
    mkEdge_eval ⟨x, y⟩ ⟨x + -30, y + 0⟩ ⟨x + 0, y + -30⟩ (Real.sqrt 1800) ⟨x - 15, y - 15⟩
      ⟨-30 / Real.sqrt 1800, -30 / Real.sqrt 1800⟩
      (by rw [show (x + 0 - (x + -30)) * (x + 0 - (x + -30)) +
          (y + -30 - (y + 0)) * (y + -30 - (y + 0)) = (1800 : ℝ) from by ring])
      (by ring_nf; norm_num)
      (Point.ext (by ring) (by ring)) (Point.ext (by ring) (by ring))]

/-! ### Sufficient conditions for incompatibility -/

/-- The proximity gate: midpoints further apart than 40 units are never
compatible. -/
lemma not_compat_far (e1 e2 : Edge)
    (h : 1600 < (e1.midpoint.x - e2.midpoint.x) ^ 2 + (e1.midpoint.y - e2.midpoint.y) ^ 2) :
    ¬areEdgesCompatible e1 e2 := by
  intro hc
  unfold areEdgesCompatible edgeDistance at hc
  obtain ⟨_, h2, _, _⟩ := hc
  have := (Real.sqrt_le_iff.mp h2).2
  nlinarith [this, h]

/-- The orientation gate: normals whose dot product exceeds `-0.9` are
never compatible. -/
lemma not_compat_normals (e1 e2 : Edge)
    (h : -(0.9) < e1.normal.x * e2.normal.x + e1.normal.y * e2.normal.y) :
    ¬areEdgesCompatible e1 e2 := by
  intro hc
  unfold areEdgesCompatible at hc
  obtain ⟨_, _, h3, _⟩ := hc
  linarith

/-- An edge is never compatible with itself: its normal's dot product
with itself is nonnegative, failing the opposing-orientation gate. -/
lemma not_compat_self (e : Edge) : ¬areEdgesCompatible e e := by
  apply not_compat_normals
  nlinarith [sq_nonneg e.normal.x, sq_nonneg e.normal.y]

lemma triangle_dot_bound : -(0.9 : ℝ) < -(25 / Real.sqrt 2650) := by
  have h51 : (51 : ℝ) ≤ Real.sqrt 2650 :=
    (Real.le_sqrt (by norm_num) (by norm_num)).mpr (by norm_num)
  have h0 : (0 : ℝ) < Real.sqrt 2650 := Real.sqrt_pos.mpr (by norm_num)
  rw [neg_lt_neg_iff, div_lt_iff₀ h0]
  nlinarith [h51]

/-! ### No two distinct edges of a single unrotated tile at the origin
are compatible -/

lemma pairwise_three {A : Type} {R : A → A → Prop} {a b c : A}
    (hab : R a b) (hac : R a c) (hbc : R b c) : List.Pairwise R [a, b, c] := by
  refine List.Pairwise.cons ?_ (List.Pairwise.cons ?_ (List.pairwise_singleton _ _))
  · intro x hx
    simp only [List.mem_cons, List.mem_singleton, List.not_mem_nil, or_false] at hx
    rcases hx with rfl | rfl
    exacts [hab, hac]
  · intro x hx
    simp only [List.mem_singleton] at hx
    subst hx
    exact hbc

lemma pairwise_four {A : Type} {R : A → A → Prop} {a b c d : A}
    (hab : R a b) (hac : R a c) (had : R a d) (hbc : R b c) (hbd : R b d)
    (hcd : R c d) : List.Pairwise R [a, b, c, d] := by
  refine List.Pairwise.cons ?_ (pairwise_three hbc hbd hcd)
  intro x hx
  simp only [List.mem_cons, List.mem_singleton, List.not_mem_nil, or_false] at hx
  rcases hx with rfl | rfl | rfl
  exacts [hab, hac, had]

lemma pairwise_six {A : Type} {R : A → A → Prop} {a b c d e f : A}
    (hab : R a b) (hac : R a c) (had : R a d) (hae : R a e) (haf : R a f)
    (hbc : R b c) (hbd : R b d) (hbe : R b e) (hbf : R b f)
    (hcd : R c d) (hce : R c e) (hcf : R c f)
    (hde : R d e) (hdf : R d f) (hef : R e f) : List.Pairwise R [a, b, c, d, e, f] := by
  refine List.Pairwise.cons ?_
    (List.Pairwise.cons ?_ (pairwise_four hcd hce hcf hde hdf hef))
  · intro x hx
    simp only [List.mem_cons, List.mem_singleton, List.not_mem_nil, or_false] at hx
    rcases hx with rfl | rfl | rfl | rfl | rfl
    exacts [hab, hac, had, hae, haf]
  · intro x hx
    simp only [List.mem_cons, List.mem_singleton, List.not_mem_nil, or_false] at hx
    rcases hx with rfl | rfl | rfl | rfl
    exacts [hbc, hbd, hbe, hbf]

lemma pairwise_incompat_triangle (i col : String) (m : Option Bool) (o : Option String) :
    List.Pairwise (fun a b => ¬areEdgesCompatible a b ∧ ¬areEdgesCompatible b a)
      (getShapeEdges ⟨i, ShapeType.triangle, 0, 0, 0, col, m, o⟩) := by
  rw [edges_triangle_rot0]
  refine pairwise_three ?_ ?_ ?_
  · exact ⟨not_compat_normals _ _ (by
        dsimp only
        rw [show 45 / Real.sqrt 2650 * 0 + -25 / Real.sqrt 2650 * 1 =
          -(25 / Real.sqrt 2650) from by ring]
        exact triangle_dot_bound),
      not_compat_normals _ _ (by
        dsimp only
        rw [show 0 * (45 / Real.sqrt 2650) + 1 * (-25 / Real.sqrt 2650) =
          -(25 / Real.sqrt 2650) from by ring]
        exact triangle_dot_bound)⟩
  · exact ⟨not_compat_normals _ _ (by
        dsimp only
        rw [show 45 / Real.sqrt 2650 * (-45 / Real.sqrt 2650) +
          -25 / Real.sqrt 2650 * (-25 / Real.sqrt 2650) =
          -1400 / (Real.sqrt 2650 * Real.sqrt 2650) from by ring,
          Real.mul_self_sqrt (by norm_num : (0:ℝ) ≤ 2650)]
        norm_num),
      not_compat_normals _ _ (by
        dsimp only
        rw [show -45 / Real.sqrt 2650 * (45 / Real.sqrt 2650) +
          -25 / Real.sqrt 2650 * (-25 / Real.sqrt 2650) =
          -1400 / (Real.sqrt 2650 * Real.sqrt 2650) from by ring,
          Real.mul_self_sqrt (by norm_num : (0:ℝ) ≤ 2650)]
        norm_num)⟩
  · exact ⟨not_compat_normals _ _ (by
        dsimp only
        rw [show 0 * (-45 / Real.sqrt 2650) + 1 * (-25 / Real.sqrt 2650) =
          -(25 / Real.sqrt 2650) from by ring]
        exact triangle_dot_bound),
      not_compat_normals _ _ (by
        dsimp only
        rw [show -45 / Real.sqrt 2650 * 0 + -25 / Real.sqrt 2650 * 1 =
          -(25 / Real.sqrt 2650) from by ring]
        exact triangle_dot_bound)⟩

lemma pairwise_incompat_square (i col : String) (m : Option Bool) (o : Option String) :
    List.Pairwise (fun a b => ¬areEdgesCompatible a b ∧ ¬areEdgesCompatible b a)
      (getShapeEdges ⟨i, ShapeType.square, 0, 0, 0, col, m, o⟩) := by
  rw [edges_square_rot0]
  refine pairwise_four ?_ ?_ ?_ ?_ ?_ ?_
  · exact ⟨not_compat_normals _ _ (by norm_num), not_compat_normals _ _ (by norm_num)⟩
  · exact ⟨not_compat_far _ _ (by norm_num), not_compat_far _ _ (by norm_num)⟩
  · exact ⟨not_compat_normals _ _ (by norm_num), not_compat_normals _ _ (by norm_num)⟩
  · exact ⟨not_compat_normals _ _ (by norm_num), not_compat_normals _ _ (by norm_num)⟩
  · exact ⟨not_compat_far _ _ (by norm_num), not_compat_far _ _ (by norm_num)⟩
  · exact ⟨not_compat_normals _ _ (by norm_num), not_compat_normals _ _ (by norm_num)⟩

lemma pairwise_incompat_diamond (i col : String) (m : Option Bool) (o : Option String) :
    List.Pairwise (fun a b => ¬areEdgesCompatible a b ∧ ¬areEdgesCompatible b a)
      (getShapeEdges ⟨i, ShapeType.diamond, 0, 0, 0, col, m, o⟩) := by
  rw [edges_diamond_rot0]
  refine pairwise_four ?_ ?_ ?_ ?_ ?_ ?_
  · exact ⟨not_compat_normals _ _ (by dsimp only; ring_nf; norm_num),
      not_compat_normals _ _ (by dsimp only; ring_nf; norm_num)⟩
  · exact ⟨not_compat_far _ _ (by norm_num), not_compat_far _ _ (by norm_num)⟩
  · exact ⟨not_compat_normals _ _ (by dsimp only; ring_nf; norm_num),
      not_compat_normals _ _ (by dsimp only; ring_nf; norm_num)⟩
  · exact ⟨not_compat_normals _ _ (by dsimp only; ring_nf; norm_num),
      not_compat_normals _ _ (by dsimp only; ring_nf; norm_num)⟩
  · exact ⟨not_compat_far _ _ (by norm_num), not_compat_far _ _ (by norm_num)⟩
  · exact ⟨not_compat_normals _ _ (by dsimp only; ring_nf; norm_num),
      not_compat_normals _ _ (by dsimp only; ring_nf; norm_num)⟩

lemma pairwise_incompat_hexagon (i col : String) (m : Option Bool) (o : Option String) :
    List.Pairwise (fun a b => ¬areEdgesCompatible a b ∧ ¬areEdgesCompatible b a)
      (getShapeEdges ⟨i, ShapeType.hexagon, 0, 0, 0, col, m, o⟩) := by
  rw [edges_hexagon_rot0]
  refine pairwise_six ?_ ?_ ?_ ?_ ?_ ?_ ?_ ?_ ?_ ?_ ?_ ?_ ?_ ?_ ?_ <;>
    exact ⟨not_compat_far _ _ (by norm_num), not_compat_far _ _ (by norm_num)⟩

lemma pairwise_incompat_origin (s : ShapeType) (i col : String) (m : Option Bool)
    (o : Option String) :
    List.Pairwise (fun a b => ¬areEdgesCompatible a b ∧ ¬areEdgesCompatible b a)
      (getShapeEdges ⟨i, s, 0, 0, 0, col, m, o⟩) := by
  cases s
  case triangle => exact pairwise_incompat_triangle i col m o
  case square => exact pairwise_incompat_square i col m o
  case hexagon => exact pairwise_incompat_hexagon i col m o
  case diamond => exact pairwise_incompat_diamond i col m o

/-! ### C3 material: degenerate edges are emitted, not skipped,
but can never arise from an actual tile -/

/-- The edge-construction loop emits a zero-length edge rather than
skipping it: on a vertex list with a duplicated consecutive vertex, all
three consecutive pairs produce edges, the degenerate one with length
`0` (its normal being a division by zero). -/
lemma edgesFromVertices_degenerate :
    ((edgesFromVertices ⟨0, 0⟩ [⟨0, 0⟩, ⟨0, 0⟩, ⟨1, 0⟩]).map Edge.length) = [0, 1, 1] := by
  unfold edgesFromVertices
  simp only [List.rotate_cons_succ, List.rotate_zero, List.cons_append, List.nil_append,
    List.zipWith_cons_cons, List.zipWith_nil_right, List.map_cons, List.map_nil]
  unfold mkEdge
  dsimp only
  norm_num [Real.sqrt_zero, Real.sqrt_one]

/-! ### Rigid-motion invariance: edges of a placed tile are the
transformed edges of the same tile at the origin with rotation 0 -/

lemma rotVec_dot (t : Tile) (u v : Point) :
    (rotVec t u).x * (rotVec t v).x + (rotVec t u).y * (rotVec t v).y =
      u.x * v.x + u.y * v.y := by
  unfold rotVec
  dsimp only
  linear_combination (u.x * v.x + u.y * v.y) * tile_pyth t

lemma mkEdge_iso (t : Tile) (c p q : Point) :
    mkEdge (transformP t c) (transformP t p) (transformP t q) =
      isoEdge t (mkEdge c p q) := by
  unfold mkEdge isoEdge
  dsimp only
  have hdx : (transformP t q).x - (transformP t p).x =
      (q.x - p.x) * tileCos t - (q.y - p.y) * tileSin t := by
    unfold transformP transform; dsimp only; ring
  have hdy : (transformP t q).y - (transformP t p).y =
      (q.x - p.x) * tileSin t + (q.y - p.y) * tileCos t := by
    unfold transformP transform; dsimp only; ring
  rw [hdx, hdy]
  have hL : Real.sqrt (((q.x - p.x) * tileCos t - (q.y - p.y) * tileSin t) *
      ((q.x - p.x) * tileCos t - (q.y - p.y) * tileSin t) +
      ((q.x - p.x) * tileSin t + (q.y - p.y) * tileCos t) *
      ((q.x - p.x) * tileSin t + (q.y - p.y) * tileCos t)) =
      Real.sqrt ((q.x - p.x) * (q.x - p.x) + (q.y - p.y) * (q.y - p.y)) := by
    congr 1
    linear_combination ((q.x - p.x) * (q.x - p.x) + (q.y - p.y) * (q.y - p.y)) * tile_pyth t
  rw [hL]
  have hcond : ((q.x - p.x) * tileSin t + (q.y - p.y) * tileCos t) /
        Real.sqrt ((q.x - p.x) * (q.x - p.x) + (q.y - p.y) * (q.y - p.y)) *
        ((transformP t c).x - ((transformP t p).x + (transformP t q).x) / 2) +
      -((q.x - p.x) * tileCos t - (q.y - p.y) * tileSin t) /
        Real.sqrt ((q.x - p.x) * (q.x - p.x) + (q.y - p.y) * (q.y - p.y)) *
        ((transformP t c).y - ((transformP t p).y + (transformP t q).y) / 2) =
      (q.y - p.y) / Real.sqrt ((q.x - p.x) * (q.x - p.x) + (q.y - p.y) * (q.y - p.y)) *
        (c.x - (p.x + q.x) / 2) +
      -(q.x - p.x) / Real.sqrt ((q.x - p.x) * (q.x - p.x) + (q.y - p.y) * (q.y - p.y)) *
        (c.y - (p.y + q.y) / 2) := by
    unfold transformP transform
    dsimp only
    linear_combination (((q.y - p.y) * (c.x - (p.x + q.x) / 2) -
      (q.x - p.x) * (c.y - (p.y + q.y) / 2)) /
      Real.sqrt ((q.x - p.x) * (q.x - p.x) + (q.y - p.y) * (q.y - p.y))) * tile_pyth t
  rw [hcond]
  have hmid : (⟨((transformP t p).x + (transformP t q).x) / 2,
      ((transformP t p).y + (transformP t q).y) / 2⟩ : Point) =
      transformP t ⟨(p.x + q.x) / 2, (p.y + q.y) / 2⟩ := by
    unfold transformP transform; dsimp only; exact Point.ext (by ring) (by ring)
  rw [hmid, apply_ite (rotVec t)]
  refine Edge.ext rfl rfl rfl rfl ?_
  split_ifs with hf
  · unfold rotVec
    dsimp only
    exact Point.ext (by ring) (by ring)
  · unfold rotVec
    dsimp only
    exact Point.ext (by ring) (by ring)

lemma getShapeEdges_iso (t : Tile) :
    getShapeEdges t = (getShapeEdges (baseTile t)).map (isoEdge t) := by
  unfold getShapeEdges edgesFromVertices
  have hshape : (baseTile t).shape = t.shape := rfl
  rw [hshape]
  have hb : (localVertices t.shape).map (fun p => transform (baseTile t) p.x p.y) =
      localVertices t.shape := by
    have h1 : ∀ p ∈ localVertices t.shape,
        transform (baseTile t) p.x p.y = id p := by
      intro p _
      rw [transform_rot0 (baseTile t) rfl]
      exact Point.ext (by simp [baseTile]) (by simp [baseTile])
    rw [List.map_congr_left h1, List.map_id]
  rw [hb, ← List.map_rotate]
  refine zipWith_map_both (fun p : Point => transform t p.x p.y) _ _ _ (fun a b => ?_) _ _
  have hc0 : transformP t ⟨0, 0⟩ = (⟨t.x, t.y⟩ : Point) := by
    unfold transformP transform; dsimp only; exact Point.ext (by ring) (by ring)
  rw [← hc0]
  exact mkEdge_iso t ⟨0, 0⟩ a b

/-- The compatibility oracle is invariant under a tile's rigid
placement transform. -/
lemma compat_iso (t : Tile) (e1 e2 : Edge) :
    areEdgesCompatible (isoEdge t e1) (isoEdge t e2) ↔ areEdgesCompatible e1 e2 := by
  unfold areEdgesCompatible edgeDistance isoEdge
  dsimp only
  have h2 : ((transformP t e1.midpoint).x - (transformP t e2.midpoint).x) ^ 2 +
      ((transformP t e1.midpoint).y - (transformP t e2.midpoint).y) ^ 2 =
      (e1.midpoint.x - e2.midpoint.x) ^ 2 + (e1.midpoint.y - e2.midpoint.y) ^ 2 := by
    unfold transformP transform
    dsimp only
    linear_combination ((e1.midpoint.x - e2.midpoint.x) ^ 2 +
      (e1.midpoint.y - e2.midpoint.y) ^ 2) * tile_pyth t
  rw [h2, rotVec_dot]
  have hd1x : (transformP t e1.endp).x - (transformP t e1.start).x =
      (e1.endp.x - e1.start.x) * tileCos t - (e1.endp.y - e1.start.y) * tileSin t := by
    unfold transformP transform; dsimp only; ring
  have hd1y : (transformP t e1.endp).y - (transformP t e1.start).y =
      (e1.endp.x - e1.start.x) * tileSin t + (e1.endp.y - e1.start.y) * tileCos t := by
    unfold transformP transform; dsimp only; ring
  have hd2x : (transformP t e2.endp).x - (transformP t e2.start).x =
      (e2.endp.x - e2.start.x) * tileCos t - (e2.endp.y - e2.start.y) * tileSin t := by
    unfold transformP transform; dsimp only; ring
  have hd2y : (transformP t e2.endp).y - (transformP t e2.start).y =
      (e2.endp.x - e2.start.x) * tileSin t + (e2.endp.y - e2.start.y) * tileCos t := by
    unfold transformP transform; dsimp only; ring
  rw [hd1x, hd1y, hd2x, hd2y]
  have hl1 : Real.sqrt (((e1.endp.x - e1.start.x) * tileCos t -
      (e1.endp.y - e1.start.y) * tileSin t) *
      ((e1.endp.x - e1.start.x) * tileCos t - (e1.endp.y - e1.start.y) * tileSin t) +
      ((e1.endp.x - e1.start.x) * tileSin t + (e1.endp.y - e1.start.y) * tileCos t) *
      ((e1.endp.x - e1.start.x) * tileSin t + (e1.endp.y - e1.start.y) * tileCos t)) =
      Real.sqrt ((e1.endp.x - e1.start.x) * (e1.endp.x - e1.start.x) +
        (e1.endp.y - e1.start.y) * (e1.endp.y - e1.start.y)) := by
    congr 1
    linear_combination ((e1.endp.x - e1.start.x) * (e1.endp.x - e1.start.x) +
      (e1.endp.y - e1.start.y) * (e1.endp.y - e1.start.y)) * tile_pyth t
  have hl2 : Real.sqrt (((e2.endp.x - e2.start.x) * tileCos t -
      (e2.endp.y - e2.start.y) * tileSin t) *
      ((e2.endp.x - e2.start.x) * tileCos t - (e2.endp.y - e2.start.y) * tileSin t) +
      ((e2.endp.x - e2.start.x) * tileSin t + (e2.endp.y - e2.start.y) * tileCos t) *
      ((e2.endp.x - e2.start.x) * tileSin t + (e2.endp.y - e2.start.y) * tileCos t)) =
      Real.sqrt ((e2.endp.x - e2.start.x) * (e2.endp.x - e2.start.x) +
        (e2.endp.y - e2.start.y) * (e2.endp.y - e2.start.y)) := by
    congr 1
    linear_combination ((e2.endp.x - e2.start.x) * (e2.endp.x - e2.start.x) +
      (e2.endp.y - e2.start.y) * (e2.endp.y - e2.start.y)) * tile_pyth t
  rw [hl1, hl2]
  have hdot : ((e1.endp.x - e1.start.x) * tileCos t -
        (e1.endp.y - e1.start.y) * tileSin t) /
        Real.sqrt ((e1.endp.x - e1.start.x) * (e1.endp.x - e1.start.x) +
          (e1.endp.y - e1.start.y) * (e1.endp.y - e1.start.y)) *
        (((e2.endp.x - e2.start.x) * tileCos t - (e2.endp.y - e2.start.y) * tileSin t) /
        Real.sqrt ((e2.endp.x - e2.start.x) * (e2.endp.x - e2.start.x) +
          (e2.endp.y - e2.start.y) * (e2.endp.y - e2.start.y))) +
      ((e1.endp.x - e1.start.x) * tileSin t + (e1.endp.y - e1.start.y) * tileCos t) /
        Real.sqrt ((e1.endp.x - e1.start.x) * (e1.endp.x - e1.start.x) +
          (e1.endp.y - e1.start.y) * (e1.endp.y - e1.start.y)) *
        (((e2.endp.x - e2.start.x) * tileSin t + (e2.endp.y - e2.start.y) * tileCos t) /
        Real.sqrt ((e2.endp.x - e2.start.x) * (e2.endp.x - e2.start.x) +
          (e2.endp.y - e2.start.y) * (e2.endp.y - e2.start.y))) =
      (e1.endp.x - e1.start.x) / Real.sqrt ((e1.endp.x - e1.start.x) *
          (e1.endp.x - e1.start.x) + (e1.endp.y - e1.start.y) * (e1.endp.y - e1.start.y)) *
        ((e2.endp.x - e2.start.x) / Real.sqrt ((e2.endp.x - e2.start.x) *
          (e2.endp.x - e2.start.x) + (e2.endp.y - e2.start.y) * (e2.endp.y - e2.start.y))) +
      (e1.endp.y - e1.start.y) / Real.sqrt ((e1.endp.x - e1.start.x) *
          (e1.endp.x - e1.start.x) + (e1.endp.y - e1.start.y) * (e1.endp.y - e1.start.y)) *
        ((e2.endp.y - e2.start.y) / Real.sqrt ((e2.endp.x - e2.start.x) *
          (e2.endp.x - e2.start.x) + (e2.endp.y - e2.start.y) * (e2.endp.y - e2.start.y))) := by
    linear_combination (((e1.endp.x - e1.start.x) * (e2.endp.x - e2.start.x) +
      (e1.endp.y - e1.start.y) * (e2.endp.y - e2.start.y)) /
      (Real.sqrt ((e1.endp.x - e1.start.x) * (e1.endp.x - e1.start.x) +
        (e1.endp.y - e1.start.y) * (e1.endp.y - e1.start.y)) *
       Real.sqrt ((e2.endp.x - e2.start.x) * (e2.endp.x - e2.start.x) +
        (e2.endp.y - e2.start.y) * (e2.endp.y - e2.start.y)))) * tile_pyth t
  rw [hdot]

/-- No edge of a tile is compatible with any edge of the same tile
(including itself), at any position and rotation. -/
lemma edges_incompatible_self (t : Tile) :
    ∀ e1 ∈ getShapeEdges t, ∀ e2 ∈ getShapeEdges t, ¬areEdgesCompatible e1 e2 := by
  intro e1 h1 e2 h2
  rw [getShapeEdges_iso] at h1 h2
  obtain ⟨a, ha, rfl⟩ := List.mem_map.mp h1
  obtain ⟨b, hb, rfl⟩ := List.mem_map.mp h2
  rw [compat_iso]
  rcases eq_or_ne a b with rfl | hab
  · exact not_compat_self a
  · have hp : List.Pairwise
        (fun u v => ¬areEdgesCompatible u v ∧ ¬areEdgesCompatible v u)
        (getShapeEdges (baseTile t)) := by
      obtain ⟨i, sh, x, y, r, col, mm, oo⟩ := t
      exact pairwise_incompat_origin sh i col mm oo
    have hsymm : Symmetric
        (fun u v => ¬areEdgesCompatible u v ∧ ¬areEdgesCompatible v u) :=
      fun u v h => ⟨h.2, h.1⟩
    exact (List.Pairwise.forall hsymm hp ha hb hab).1

/-! ### The snap search yields nothing when no pair is compatible -/

lemma foldl_inner_id (e1 : Edge) (l2 : List Edge) :
    ∀ acc : Option BestSnap, (∀ e2 ∈ l2, ¬areEdgesCompatible e1 e2) →
      l2.foldl (fun acc2 edge2 => considerPair acc2 e1 edge2) acc = acc := by
  induction l2 with
  | nil => intro acc _; rfl
  | cons b l ih =>
    intro acc h
    have hstep : considerPair acc e1 b = acc := by
      unfold considerPair
      rw [if_neg (h b (List.mem_cons_self _ _))]
    rw [List.foldl_cons, hstep]
    exact ih acc fun e2 he2 => h e2 (List.mem_cons_of_mem _ he2)

lemma foldl_nested_id (l1 l2 : List Edge) :
    ∀ acc : Option BestSnap, (∀ ea ∈ l1, ∀ eb ∈ l2, ¬areEdgesCompatible ea eb) →
      l1.foldl (fun acc e1 => l2.foldl (fun acc2 e2 => considerPair acc2 e1 e2) acc)
        acc = acc := by
  induction l1 with
  | nil => intro acc _; rfl
  | cons a l ih =>
    intro acc h
    rw [List.foldl_cons, foldl_inner_id a l2 acc (h a (List.mem_cons_self _ _))]
    exact ih acc fun ea hea eb heb => h ea (List.mem_cons_of_mem _ hea) eb heb

/-! ### Symmetry of the compatibility oracle -/

lemma areEdgesCompatible_swap (a b : Edge) (h : areEdgesCompatible a b) :
    areEdgesCompatible b a := by
  unfold areEdgesCompatible edgeDistance at h ⊢
  dsimp only at h ⊢
  obtain ⟨h1, h2, h3, h4⟩ := h
  refine ⟨by rwa [abs_sub_comm], ?_, ?_, ?_⟩
  · rw [show (b.midpoint.x - a.midpoint.x) ^ 2 = (a.midpoint.x - b.midpoint.x) ^ 2 by ring,
      show (b.midpoint.y - a.midpoint.y) ^ 2 = (a.midpoint.y - b.midpoint.y) ^ 2 by ring]
    exact h2
  · calc b.normal.x * a.normal.x + b.normal.y * a.normal.y
        = a.normal.x * b.normal.x + a.normal.y * b.normal.y := by ring
      _ ≤ -(0.9) := h3
  · have e : (b.endp.x - b.start.x) / Real.sqrt ((b.endp.x - b.start.x) * (b.endp.x - b.start.x) + (b.endp.y - b.start.y) * (b.endp.y - b.start.y)) *
        ((a.endp.x - a.start.x) / Real.sqrt ((a.endp.x - a.start.x) * (a.endp.x - a.start.x) + (a.endp.y - a.start.y) * (a.endp.y - a.start.y))) +
        (b.endp.y - b.start.y) / Real.sqrt ((b.endp.x - b.start.x) * (b.endp.x - b.start.x) + (b.endp.y - b.start.y) * (b.endp.y - b.start.y)) *
        ((a.endp.y - a.start.y) / Real.sqrt ((a.endp.x - a.start.x) * (a.endp.x - a.start.x) + (a.endp.y - a.start.y) * (a.endp.y - a.start.y))) =
        (a.endp.x - a.start.x) / Real.sqrt ((a.endp.x - a.start.x) * (a.endp.x - a.start.x) + (a.endp.y - a.start.y) * (a.endp.y - a.start.y)) *
        ((b.endp.x - b.start.x) / Real.sqrt ((b.endp.x - b.start.x) * (b.endp.x - b.start.x) + (b.endp.y - b.start.y) * (b.endp.y - b.start.y))) +
        (a.endp.y - a.start.y) / Real.sqrt ((a.endp.x - a.start.x) * (a.endp.x - a.start.x) + (a.endp.y - a.start.y) * (a.endp.y - a.start.y)) *
        ((b.endp.y - b.start.y) / Real.sqrt ((b.endp.x - b.start.x) * (b.endp.x - b.start.x) + (b.endp.y - b.start.y) * (b.endp.y - b.start.y))) := by
      ring
    rw [e]
    exact h4

lemma areEdgesCompatible_comm (a b : Edge) :
    areEdgesCompatible a b ↔ areEdgesCompatible b a :=
  ⟨areEdgesCompatible_swap a b, areEdgesCompatible_swap b a⟩

/-! ### Case analysis of the snap resolver's output -/

lemma canTilesSnap_cases (t1 t2 : Tile) :
    canTilesSnap t1 t2 = ⟨false, Option.none⟩ ∨
      ∃ p, canTilesSnap t1 t2 = ⟨true, some p⟩ := by
  unfold canTilesSnap
  dsimp only
  cases List.foldl
      (fun acc edge1 => List.foldl (fun acc2 edge2 => considerPair acc2 edge1 edge2) acc
        (getShapeEdges t2))
      Option.none (getShapeEdges t1) with
  | none => left; rfl
  | some b => right; exact ⟨_, rfl⟩

end Tess

namespace Tess

/-- C6: `areEdgesCompatible` is a symmetric predicate: for all edges
`a` and `b`, `compatible(a,b)` equals `compatible(b,a)`. -/
theorem compatible_symmetric (a b : Edge) :
    areEdgesCompatible a b ↔ areEdgesCompatible b a :=
  areEdgesCompatible_comm a b

/-- C7: every edge returned by `getShapeEdges` has a normal that never
points inward: its dot product with the vector from the edge midpoint
to the tile center is `≤ 0`, for every tile, position and rotation. -/
theorem normal_never_inward (t : Tile) :
    (getShapeEdges t).Forall
      (fun e => e.normal.x * (t.x - e.midpoint.x) + e.normal.y * (t.y - e.midpoint.y) ≤ 0) := by
  rw [List.forall_iff_forall_mem]
  intro e he
  unfold getShapeEdges edgesFromVertices at he
  obtain ⟨a, b, _, _, rfl⟩ := mem_zipWith he
  exact mkEdge_outward ⟨t.x, t.y⟩ a b

/-- C8: `canTilesSnap` pairs `canSnap` and `snapPosition` consistently:
the position is `none` exactly when `canSnap` is `false`, and a point
exactly when `canSnap` is `true`. -/
theorem snap_result_consistent (t1 t2 : Tile) :
    ((canTilesSnap t1 t2).canSnap = false ↔ (canTilesSnap t1 t2).snapPosition = Option.none) ∧
    ((canTilesSnap t1 t2).canSnap = true ↔ ∃ p, (canTilesSnap t1 t2).snapPosition = some p) := by
  rcases canTilesSnap_cases t1 t2 with h | ⟨p, h⟩ <;> rw [h] <;> simp

/-- C9: for every symmetry mode, every mirror produced by
`createSymmetryMirrors` keeps the primary's shape, rotation and color,
and only position, id and the mirror-marking fields are changed
(`isSymmetryMirror` is set and `originalId` points to the primary). -/
theorem mirror_preserves_frame (mode : SymmetryMode) (ids : ℕ → String) (tile : Tile) :
    (createSymmetryMirrors mode ids tile).Forall
      (fun m => m.shape = tile.shape ∧ m.rotation = tile.rotation ∧ m.color = tile.color ∧
        m.isSymmetryMirror = some true ∧ m.originalId = some tile.id) := by
  cases mode <;> simp [createSymmetryMirrors]

/-- C4: `createSymmetryMirrors` in `radial` mode returns exactly 3
tiles — the horizontal reflection, the vertical reflection, and the
point reflection through the canvas center — and the set of four
positions (primary plus mirrors) is closed under horizontal and
vertical reflection through the center. -/
theorem radial_mirrors_complete (ids : ℕ → String) (tile : Tile) :
    (createSymmetryMirrors SymmetryMode.radial ids tile).length = 3 ∧
    (createSymmetryMirrors SymmetryMode.radial ids tile).map tilePos =
      [reflectH (tilePos tile), reflectV (tilePos tile), reflectH (reflectV (tilePos tile))] ∧
    (tilePos tile :: (createSymmetryMirrors SymmetryMode.radial ids tile).map tilePos).Forall
      (fun p =>
        reflectH p ∈ tilePos tile ::
          (createSymmetryMirrors SymmetryMode.radial ids tile).map tilePos ∧
        reflectV p ∈ tilePos tile ::
          (createSymmetryMirrors SymmetryMode.radial ids tile).map tilePos) := by
  refine ⟨rfl, rfl, ?_⟩
  simp only [createSymmetryMirrors, List.map, List.Forall, tilePos, reflectH, reflectV,
    List.mem_cons, Point.mk.injEq, List.mem_singleton]
  norm_num [centerX, centerY]

/-! ### Concrete evaluation of the snap resolver on two squares -/

lemma sqrt_le_of_le_1600 (q : ℝ) (h : q ≤ 1600) : Real.sqrt q ≤ 40 := by
  calc Real.sqrt q ≤ Real.sqrt 1600 := Real.sqrt_le_sqrt h
    _ = 40 := by
      rw [show (1600 : ℝ) = 40 ^ 2 from by norm_num,
        Real.sqrt_sq (by norm_num : (0:ℝ) ≤ 40)]

lemma considerPair_incompat (acc : Option BestSnap) (e1 e2 : Edge)
    (h : ¬areEdgesCompatible e1 e2) : considerPair acc e1 e2 = acc := by
  unfold considerPair
  rw [if_neg h]

lemma considerPair_compat_none (e1 e2 : Edge) (h : areEdgesCompatible e1 e2) :
    considerPair Option.none e1 e2 = some ⟨e1, e2, edgeDistance e1 e2⟩ := by
  unfold considerPair
  rw [if_pos h]

/-- The one compatible edge pair of the two squares at `(300,300)` and
`(360,300)`: the right edge of the first against the left edge of the
second. -/
lemma squares_edge_pair_compat :
    areEdgesCompatible
      (⟨⟨300 + 25, 300 + -25⟩, ⟨300 + 25, 300 + 25⟩, 50, ⟨300 + 25, 300⟩, ⟨1, 0⟩⟩ : Edge)
      (⟨⟨360 + -25, 300 + 25⟩, ⟨360 + -25, 300 + -25⟩, 50, ⟨360 - 25, 300⟩, ⟨-1, 0⟩⟩ : Edge) := by
  unfold areEdgesCompatible edgeDistance
  dsimp only
  have hA : Real.sqrt ((300 + 25 - (300 + 25)) * (300 + 25 - (300 + 25)) +
      (300 + 25 - (300 + -25)) * (300 + 25 - (300 + -25))) = 50 := by
    rw [show (300 + 25 - (300 + 25)) * (300 + 25 - (300 + 25)) +
      (300 + 25 - (300 + -25)) * (300 + 25 - (300 + -25)) = (2500 : ℝ) from by norm_num,
      show (2500 : ℝ) = 50 ^ 2 from by norm_num, Real.sqrt_sq (by norm_num : (0:ℝ) ≤ 50)]
  have hB : Real.sqrt ((360 + -25 - (360 + -25)) * (360 + -25 - (360 + -25)) +
      (300 + -25 - (300 + 25)) * (300 + -25 - (300 + 25))) = 50 := by
    rw [show (360 + -25 - (360 + -25)) * (360 + -25 - (360 + -25)) +
      (300 + -25 - (300 + 25)) * (300 + -25 - (300 + 25)) = (2500 : ℝ) from by norm_num,
      show (2500 : ℝ) = 50 ^ 2 from by norm_num, Real.sqrt_sq (by norm_num : (0:ℝ) ≤ 50)]
  refine ⟨by norm_num, sqrt_le_of_le_1600 _ (by norm_num), by norm_num, ?_⟩
  rw [hA, hB]
  norm_num

/-- Evaluating `canTilesSnap` on the squares at `(300,300)` and `(360,300)`:
snapping succeeds and the resolved position is exactly `(309, 300)`. -/
lemma snap_squares_eval :
    canTilesSnap ⟨"A", ShapeType.square, 300, 300, 0, "c", Option.none, Option.none⟩
      ⟨"B", ShapeType.square, 360, 300, 0, "c", Option.none, Option.none⟩ =
      ⟨true, some ⟨309, 300⟩⟩ := by
  have hc := squares_edge_pair_compat
  unfold canTilesSnap
  dsimp only
  rw [edges_square_rot0, edges_square_rot0]
  simp only [List.foldl_cons, List.foldl_nil]
  rw [considerPair_incompat Option.none
      (⟨⟨300 + -25, 300 + -25⟩, ⟨300 + 25, 300 + -25⟩, 50, ⟨300, 300 - 25⟩, ⟨0, -1⟩⟩ : Edge)
      (⟨⟨360 + -25, 300 + -25⟩, ⟨360 + 25, 300 + -25⟩, 50, ⟨360, 300 - 25⟩, ⟨0, -1⟩⟩ : Edge) (not_compat_normals _ _ (by norm_num)),
    considerPair_incompat Option.none
      (⟨⟨300 + -25, 300 + -25⟩, ⟨300 + 25, 300 + -25⟩, 50, ⟨300, 300 - 25⟩, ⟨0, -1⟩⟩ : Edge)
      (⟨⟨360 + 25, 300 + -25⟩, ⟨360 + 25, 300 + 25⟩, 50, ⟨360 + 25, 300⟩, ⟨1, 0⟩⟩ : Edge) (not_compat_normals _ _ (by norm_num)),
    considerPair_incompat Option.none
      (⟨⟨300 + -25, 300 + -25⟩, ⟨300 + 25, 300 + -25⟩, 50, ⟨300, 300 - 25⟩, ⟨0, -1⟩⟩ : Edge)
      (⟨⟨360 + 25, 300 + 25⟩, ⟨360 + -25, 300 + 25⟩, 50, ⟨360, 300 + 25⟩, ⟨0, 1⟩⟩ : Edge) (not_compat_far _ _ (by norm_num)),
    considerPair_incompat Option.none
      (⟨⟨300 + -25, 300 + -25⟩, ⟨300 + 25, 300 + -25⟩, 50, ⟨300, 300 - 25⟩, ⟨0, -1⟩⟩ : Edge)
      (⟨⟨360 + -25, 300 + 25⟩, ⟨360 + -25, 300 + -25⟩, 50, ⟨360 - 25, 300⟩, ⟨-1, 0⟩⟩ : Edge) (not_compat_normals _ _ (by norm_num)),
    considerPair_incompat Option.none
      (⟨⟨300 + 25, 300 + -25⟩, ⟨300 + 25, 300 + 25⟩, 50, ⟨300 + 25, 300⟩, ⟨1, 0⟩⟩ : Edge)
      (⟨⟨360 + -25, 300 + -25⟩, ⟨360 + 25, 300 + -25⟩, 50, ⟨360, 300 - 25⟩, ⟨0, -1⟩⟩ : Edge) (not_compat_normals _ _ (by norm_num)),
    considerPair_incompat Option.none
      (⟨⟨300 + 25, 300 + -25⟩, ⟨300 + 25, 300 + 25⟩, 50, ⟨300 + 25, 300⟩, ⟨1, 0⟩⟩ : Edge)
      (⟨⟨360 + 25, 300 + -25⟩, ⟨360 + 25, 300 + 25⟩, 50, ⟨360 + 25, 300⟩, ⟨1, 0⟩⟩ : Edge) (not_compat_normals _ _ (by norm_num)),
    considerPair_incompat Option.none
      (⟨⟨300 + 25, 300 + -25⟩, ⟨300 + 25, 300 + 25⟩, 50, ⟨300 + 25, 300⟩, ⟨1, 0⟩⟩ : Edge)
      (⟨⟨360 + 25, 300 + 25⟩, ⟨360 + -25, 300 + 25⟩, 50, ⟨360, 300 + 25⟩, ⟨0, 1⟩⟩ : Edge) (not_compat_normals _ _ (by norm_num)),
    considerPair_compat_none
      (⟨⟨300 + 25, 300 + -25⟩, ⟨300 + 25, 300 + 25⟩, 50, ⟨300 + 25, 300⟩, ⟨1, 0⟩⟩ : Edge)
      (⟨⟨360 + -25, 300 + 25⟩, ⟨360 + -25, 300 + -25⟩, 50, ⟨360 - 25, 300⟩, ⟨-1, 0⟩⟩ : Edge) hc,
    considerPair_incompat (some ⟨⟨⟨300 + 25, 300 + -25⟩, ⟨300 + 25, 300 + 25⟩, 50, ⟨300 + 25, 300⟩, ⟨1, 0⟩⟩, ⟨⟨360 + -25, 300 + 25⟩, ⟨360 + -25, 300 + -25⟩, 50, ⟨360 - 25, 300⟩, ⟨-1, 0⟩⟩, edgeDistance (⟨⟨300 + 25, 300 + -25⟩, ⟨300 + 25, 300 + 25⟩, 50, ⟨300 + 25, 300⟩, ⟨1, 0⟩⟩ : Edge) (⟨⟨360 + -25, 300 + 25⟩, ⟨360 + -25, 300 + -25⟩, 50, ⟨360 - 25, 300⟩, ⟨-1, 0⟩⟩ : Edge)⟩)
      (⟨⟨300 + 25, 300 + 25⟩, ⟨300 + -25, 300 + 25⟩, 50, ⟨300, 300 + 25⟩, ⟨0, 1⟩⟩ : Edge)
      (⟨⟨360 + -25, 300 + -25⟩, ⟨360 + 25, 300 + -25⟩, 50, ⟨360, 300 - 25⟩, ⟨0, -1⟩⟩ : Edge) (not_compat_far _ _ (by norm_num)),
    considerPair_incompat (some ⟨⟨⟨300 + 25, 300 + -25⟩, ⟨300 + 25, 300 + 25⟩, 50, ⟨300 + 25, 300⟩, ⟨1, 0⟩⟩, ⟨⟨360 + -25, 300 + 25⟩, ⟨360 + -25, 300 + -25⟩, 50, ⟨360 - 25, 300⟩, ⟨-1, 0⟩⟩, edgeDistance (⟨⟨300 + 25, 300 + -25⟩, ⟨300 + 25, 300 + 25⟩, 50, ⟨300 + 25, 300⟩, ⟨1, 0⟩⟩ : Edge) (⟨⟨360 + -25, 300 + 25⟩, ⟨360 + -25, 300 + -25⟩, 50, ⟨360 - 25, 300⟩, ⟨-1, 0⟩⟩ : Edge)⟩)
      (⟨⟨300 + 25, 300 + 25⟩, ⟨300 + -25, 300 + 25⟩, 50, ⟨300, 300 + 25⟩, ⟨0, 1⟩⟩ : Edge)
      (⟨⟨360 + 25, 300 + -25⟩, ⟨360 + 25, 300 + 25⟩, 50, ⟨360 + 25, 300⟩, ⟨1, 0⟩⟩ : Edge) (not_compat_normals _ _ (by norm_num)),
    considerPair_incompat (some ⟨⟨⟨300 + 25, 300 + -25⟩, ⟨300 + 25, 300 + 25⟩, 50, ⟨300 + 25, 300⟩, ⟨1, 0⟩⟩, ⟨⟨360 + -25, 300 + 25⟩, ⟨360 + -25, 300 + -25⟩, 50, ⟨360 - 25, 300⟩, ⟨-1, 0⟩⟩, edgeDistance (⟨⟨300 + 25, 300 + -25⟩, ⟨300 + 25, 300 + 25⟩, 50, ⟨300 + 25, 300⟩, ⟨1, 0⟩⟩ : Edge) (⟨⟨360 + -25, 300 + 25⟩, ⟨360 + -25, 300 + -25⟩, 50, ⟨360 - 25, 300⟩, ⟨-1, 0⟩⟩ : Edge)⟩)
      (⟨⟨300 + 25, 300 + 25⟩, ⟨300 + -25, 300 + 25⟩, 50, ⟨300, 300 + 25⟩, ⟨0, 1⟩⟩ : Edge)
      (⟨⟨360 + 25, 300 + 25⟩, ⟨360 + -25, 300 + 25⟩, 50, ⟨360, 300 + 25⟩, ⟨0, 1⟩⟩ : Edge) (not_compat_normals _ _ (by norm_num)),
    considerPair_incompat (some ⟨⟨⟨300 + 25, 300 + -25⟩, ⟨300 + 25, 300 + 25⟩, 50, ⟨300 + 25, 300⟩, ⟨1, 0⟩⟩, ⟨⟨360 + -25, 300 + 25⟩, ⟨360 + -25, 300 + -25⟩, 50, ⟨360 - 25, 300⟩, ⟨-1, 0⟩⟩, edgeDistance (⟨⟨300 + 25, 300 + -25⟩, ⟨300 + 25, 300 + 25⟩, 50, ⟨300 + 25, 300⟩, ⟨1, 0⟩⟩ : Edge) (⟨⟨360 + -25, 300 + 25⟩, ⟨360 + -25, 300 + -25⟩, 50, ⟨360 - 25, 300⟩, ⟨-1, 0⟩⟩ : Edge)⟩)
      (⟨⟨300 + 25, 300 + 25⟩, ⟨300 + -25, 300 + 25⟩, 50, ⟨300, 300 + 25⟩, ⟨0, 1⟩⟩ : Edge)
      (⟨⟨360 + -25, 300 + 25⟩, ⟨360 + -25, 300 + -25⟩, 50, ⟨360 - 25, 300⟩, ⟨-1, 0⟩⟩ : Edge) (not_compat_normals _ _ (by norm_num)),
    considerPair_incompat (some ⟨⟨⟨300 + 25, 300 + -25⟩, ⟨300 + 25, 300 + 25⟩, 50, ⟨300 + 25, 300⟩, ⟨1, 0⟩⟩, ⟨⟨360 + -25, 300 + 25⟩, ⟨360 + -25, 300 + -25⟩, 50, ⟨360 - 25, 300⟩, ⟨-1, 0⟩⟩, edgeDistance (⟨⟨300 + 25, 300 + -25⟩, ⟨300 + 25, 300 + 25⟩, 50, ⟨300 + 25, 300⟩, ⟨1, 0⟩⟩ : Edge) (⟨⟨360 + -25, 300 + 25⟩, ⟨360 + -25, 300 + -25⟩, 50, ⟨360 - 25, 300⟩, ⟨-1, 0⟩⟩ : Edge)⟩)
      (⟨⟨300 + -25, 300 + 25⟩, ⟨300 + -25, 300 + -25⟩, 50, ⟨300 - 25, 300⟩, ⟨-1, 0⟩⟩ : Edge)
      (⟨⟨360 + -25, 300 + -25⟩, ⟨360 + 25, 300 + -25⟩, 50, ⟨360, 300 - 25⟩, ⟨0, -1⟩⟩ : Edge) (not_compat_normals _ _ (by norm_num)),
    considerPair_incompat (some ⟨⟨⟨300 + 25, 300 + -25⟩, ⟨300 + 25, 300 + 25⟩, 50, ⟨300 + 25, 300⟩, ⟨1, 0⟩⟩, ⟨⟨360 + -25, 300 + 25⟩, ⟨360 + -25, 300 + -25⟩, 50, ⟨360 - 25, 300⟩, ⟨-1, 0⟩⟩, edgeDistance (⟨⟨300 + 25, 300 + -25⟩, ⟨300 + 25, 300 + 25⟩, 50, ⟨300 + 25, 300⟩, ⟨1, 0⟩⟩ : Edge) (⟨⟨360 + -25, 300 + 25⟩, ⟨360 + -25, 300 + -25⟩, 50, ⟨360 - 25, 300⟩, ⟨-1, 0⟩⟩ : Edge)⟩)
      (⟨⟨300 + -25, 300 + 25⟩, ⟨300 + -25, 300 + -25⟩, 50, ⟨300 - 25, 300⟩, ⟨-1, 0⟩⟩ : Edge)
      (⟨⟨360 + 25, 300 + -25⟩, ⟨360 + 25, 300 + 25⟩, 50, ⟨360 + 25, 300⟩, ⟨1, 0⟩⟩ : Edge) (not_compat_far _ _ (by norm_num)),
    considerPair_incompat (some ⟨⟨⟨300 + 25, 300 + -25⟩, ⟨300 + 25, 300 + 25⟩, 50, ⟨300 + 25, 300⟩, ⟨1, 0⟩⟩, ⟨⟨360 + -25, 300 + 25⟩, ⟨360 + -25, 300 + -25⟩, 50, ⟨360 - 25, 300⟩, ⟨-1, 0⟩⟩, edgeDistance (⟨⟨300 + 25, 300 + -25⟩, ⟨300 + 25, 300 + 25⟩, 50, ⟨300 + 25, 300⟩, ⟨1, 0⟩⟩ : Edge) (⟨⟨360 + -25, 300 + 25⟩, ⟨360 + -25, 300 + -25⟩, 50, ⟨360 - 25, 300⟩, ⟨-1, 0⟩⟩ : Edge)⟩)
      (⟨⟨300 + -25, 300 + 25⟩, ⟨300 + -25, 300 + -25⟩, 50, ⟨300 - 25, 300⟩, ⟨-1, 0⟩⟩ : Edge)
      (⟨⟨360 + 25, 300 + 25⟩, ⟨360 + -25, 300 + 25⟩, 50, ⟨360, 300 + 25⟩, ⟨0, 1⟩⟩ : Edge) (not_compat_normals _ _ (by norm_num)),
    considerPair_incompat (some ⟨⟨⟨300 + 25, 300 + -25⟩, ⟨300 + 25, 300 + 25⟩, 50, ⟨300 + 25, 300⟩, ⟨1, 0⟩⟩, ⟨⟨360 + -25, 300 + 25⟩, ⟨360 + -25, 300 + -25⟩, 50, ⟨360 - 25, 300⟩, ⟨-1, 0⟩⟩, edgeDistance (⟨⟨300 + 25, 300 + -25⟩, ⟨300 + 25, 300 + 25⟩, 50, ⟨300 + 25, 300⟩, ⟨1, 0⟩⟩ : Edge) (⟨⟨360 + -25, 300 + 25⟩, ⟨360 + -25, 300 + -25⟩, 50, ⟨360 - 25, 300⟩, ⟨-1, 0⟩⟩ : Edge)⟩)
      (⟨⟨300 + -25, 300 + 25⟩, ⟨300 + -25, 300 + -25⟩, 50, ⟨300 - 25, 300⟩, ⟨-1, 0⟩⟩ : Edge)
      (⟨⟨360 + -25, 300 + 25⟩, ⟨360 + -25, 300 + -25⟩, 50, ⟨360 - 25, 300⟩, ⟨-1, 0⟩⟩ : Edge) (not_compat_normals _ _ (by norm_num))]
  dsimp only
  norm_num [SnapResult.mk.injEq, Point.mk.injEq]

/-- C5: for every `ShapeType`, a single tile of that kind placed at
the origin with rotation `0` has no two distinct edges that are
compatible with each other (in either argument order): there is no
spurious self-snap. -/
theorem no_spurious_self_snap (s : ShapeType) (i col : String) (m : Option Bool)
    (o : Option String) :
    List.Pairwise (fun a b => ¬areEdgesCompatible a b ∧ ¬areEdgesCompatible b a)
      (getShapeEdges ⟨i, s, 0, 0, 0, col, m, o⟩) :=
  pairwise_incompat_origin s i col m o

/-- C3 (counterexample): the edge-construction loop of `getShapeEdges`
does not skip a zero-length edge: on a vertex list whose first two
vertices coincide it emits all three edges, the first with length `0`.
-/
theorem zero_length_edge_not_skipped :
    ((edgesFromVertices ⟨0, 0⟩ [⟨0, 0⟩, ⟨0, 0⟩, ⟨1, 0⟩]).map Edge.length) = [0, 1, 1] :=
  edgesFromVertices_degenerate

/-- C3 (amended): `getShapeEdges` emits one edge per consecutive vertex
pair unconditionally — nothing is skipped and nothing aborts — and a
zero-length edge can never arise from an actual tile: every edge of
every tile has strictly positive length. -/
theorem degenerate_edges_never_arise (t : Tile) :
    (getShapeEdges t).length = (localVertices t.shape).length ∧
    (getShapeEdges t).Forall (fun e => 0 < e.length) := by
  refine ⟨getShapeEdges_count t, ?_⟩
  have h := getShapeEdges_good t
  rw [List.forall_iff_forall_mem] at h ⊢
  intro e he
  exact (h e he).1

/-- C10: a tile never snaps to an exact copy of itself in the same
place: `canTilesSnap t t` always reports `canSnap = false`. -/
theorem self_copy_never_snaps (t : Tile) :
    (canTilesSnap t t).canSnap = false := by
  unfold canTilesSnap
  dsimp only
  rw [foldl_nested_id _ _ _ (edges_incompatible_self t)]

/-! ### The best-snap fold only ever returns a compatible member pair -/

lemma foldl_preserve {α β : Type} (P : β → Prop) (f : β → α → β) :
    ∀ l : List α, (∀ b, P b → ∀ a ∈ l, P (f b a)) → ∀ acc, P acc → P (l.foldl f acc) := by
  intro l
  induction l with
  | nil => intro _ acc h; exact h
  | cons x l ih =>
    intro hf acc h
    rw [List.foldl_cons]
    exact ih (fun b hb a ha => hf b hb a (List.mem_cons_of_mem _ ha)) _
      (hf acc h x (List.mem_cons_self _ _))

lemma considerPair_invariant (l1 l2 : List Edge) (e1 e2 : Edge) (h1 : e1 ∈ l1)
    (h2 : e2 ∈ l2) (acc : Option BestSnap)
    (hacc : ∀ b, acc = some b →
      b.edge1 ∈ l1 ∧ b.edge2 ∈ l2 ∧ areEdgesCompatible b.edge1 b.edge2) :
    ∀ b, considerPair acc e1 e2 = some b →
      b.edge1 ∈ l1 ∧ b.edge2 ∈ l2 ∧ areEdgesCompatible b.edge1 b.edge2 := by
  intro b hb
  unfold considerPair at hb
  by_cases hcomp : areEdgesCompatible e1 e2
  · rw [if_pos hcomp] at hb
    dsimp only at hb
    cases acc with
    | none =>
      have hb2 : some (⟨e1, e2, edgeDistance e1 e2⟩ : BestSnap) = some b := hb
      obtain rfl := Option.some.inj hb2
      exact ⟨h1, h2, hcomp⟩
    | some b0 =>
      dsimp only at hb
      split_ifs at hb with hd
      · have hb2 : some (⟨e1, e2, edgeDistance e1 e2⟩ : BestSnap) = some b := hb
        obtain rfl := Option.some.inj hb2
        exact ⟨h1, h2, hcomp⟩
      · have hb2 : some b0 = some b := hb
        obtain rfl := Option.some.inj hb2
        exact hacc b0 rfl
  · rw [if_neg hcomp] at hb
    exact hacc b hb

/-- A successful snap is produced by a compatible member edge pair, and
the resolved position is the 1-unit-pushed midpoint alignment of that
pair. -/
lemma canTilesSnap_best (t1 t2 : Tile) (p : Point)
    (h : canTilesSnap t1 t2 = ⟨true, some p⟩) :
    ∃ b : BestSnap, b.edge1 ∈ getShapeEdges t1 ∧ b.edge2 ∈ getShapeEdges t2 ∧
      areEdgesCompatible b.edge1 b.edge2 ∧
      p = ⟨t1.x + (b.edge2.midpoint.x - b.edge1.midpoint.x) + b.edge2.normal.x * 1,
           t1.y + (b.edge2.midpoint.y - b.edge1.midpoint.y) + b.edge2.normal.y * 1⟩ := by
  unfold canTilesSnap at h
  dsimp only at h
  generalize hfold : List.foldl
      (fun acc edge1 => List.foldl (fun acc2 edge2 => considerPair acc2 edge1 edge2) acc
        (getShapeEdges t2))
      Option.none (getShapeEdges t1) = r at h
  cases r with
  | none => simp at h
  | some b =>
    dsimp only at h
    have hinv := foldl_preserve
      (fun r => ∀ b0, r = some b0 →
        b0.edge1 ∈ getShapeEdges t1 ∧ b0.edge2 ∈ getShapeEdges t2 ∧
          areEdgesCompatible b0.edge1 b0.edge2)
      (fun acc edge1 => List.foldl (fun acc2 edge2 => considerPair acc2 edge1 edge2) acc
        (getShapeEdges t2))
      (getShapeEdges t1)
      (fun acc hacc e1 he1 => foldl_preserve _ _ (getShapeEdges t2)
        (fun acc2 hacc2 e2 he2 =>
          considerPair_invariant (getShapeEdges t1) (getShapeEdges t2) e1 e2 he1 he2
            acc2 hacc2)
        acc hacc)
      Option.none (fun b0 hb0 => by simp at hb0)
    rw [hfold] at hinv
    obtain ⟨m1, m2, mc⟩ := hinv b rfl
    simp only [SnapResult.mk.injEq, Option.some.injEq, true_and] at h
    exact ⟨b, m1, m2, mc, h.symm⟩

/-- C1: two square tiles at `(300,300)` and `(360,300)`, both with
rotation `0`: `canTilesSnap` returns `canSnap = true` with a snap
position whose `x`-coordinate is within the 1-unit normal push of `310`
(it is exactly `309`) and whose `y`-coordinate is exactly `300`. -/
theorem square_pair_snap_position :
    ∃ p : Point,
      canTilesSnap ⟨"A", ShapeType.square, 300, 300, 0, "c", Option.none, Option.none⟩
        ⟨"B", ShapeType.square, 360, 300, 0, "c", Option.none, Option.none⟩ =
        ⟨true, some p⟩ ∧
      |p.x - 310| ≤ 1 ∧ p.y = 300 :=
  ⟨⟨309, 300⟩, snap_squares_eval, by norm_num, rfl⟩

/-- C2: whenever `canTilesSnap` succeeds with position `P`, the moving
tile translated to `P` has an edge whose midpoint lies within `1.5`
units of a compatible edge of the stationary tile (the distance is in
fact the unit normal push). -/
theorem snap_moves_to_adjacency (t1 t2 : Tile) (p : Point)
    (h : canTilesSnap t1 t2 = ⟨true, some p⟩) :
    ∃ e1 ∈ getShapeEdges { t1 with x := p.x, y := p.y },
      ∃ e2 ∈ getShapeEdges t2,
        edgeDistance e1 e2 ≤ 1.5 ∧ areEdgesCompatible e1 e2 := by
  obtain ⟨b, m1, m2, mc, rfl⟩ := canTilesSnap_best t1 t2 p h
  have htile : ({ t1 with
      x := (⟨t1.x + (b.edge2.midpoint.x - b.edge1.midpoint.x) + b.edge2.normal.x * 1,
             t1.y + (b.edge2.midpoint.y - b.edge1.midpoint.y) + b.edge2.normal.y * 1⟩ :
        Point).x,
      y := (⟨t1.x + (b.edge2.midpoint.x - b.edge1.midpoint.x) + b.edge2.normal.x * 1,
             t1.y + (b.edge2.midpoint.y - b.edge1.midpoint.y) + b.edge2.normal.y * 1⟩ :
        Point).y } : Tile) =
      { t1 with
        x := t1.x + (b.edge2.midpoint.x - b.edge1.midpoint.x + b.edge2.normal.x * 1),
        y := t1.y + (b.edge2.midpoint.y - b.edge1.midpoint.y + b.edge2.normal.y * 1) } :=
    Tile.ext rfl rfl (by dsimp only; ring) (by dsimp only; ring) rfl rfl rfl rfl
  rw [htile, getShapeEdges_shift]
  have hunit : b.edge2.normal.x ^ 2 + b.edge2.normal.y ^ 2 = 1 :=
    ((List.forall_iff_forall_mem.mp (getShapeEdges_good t2)) _ m2).2
  have hdist : edgeDistance
      (translateEdge ⟨b.edge2.midpoint.x - b.edge1.midpoint.x + b.edge2.normal.x * 1,
        b.edge2.midpoint.y - b.edge1.midpoint.y + b.edge2.normal.y * 1⟩ b.edge1)
      b.edge2 = 1 := by
    unfold edgeDistance translateEdge translatePoint
    dsimp only
    rw [show b.edge1.midpoint.x +
        (b.edge2.midpoint.x - b.edge1.midpoint.x + b.edge2.normal.x * 1) -
        b.edge2.midpoint.x = b.edge2.normal.x from by ring,
      show b.edge1.midpoint.y +
        (b.edge2.midpoint.y - b.edge1.midpoint.y + b.edge2.normal.y * 1) -
        b.edge2.midpoint.y = b.edge2.normal.y from by ring,
      hunit, Real.sqrt_one]
  refine ⟨translateEdge
      ⟨b.edge2.midpoint.x - b.edge1.midpoint.x + b.edge2.normal.x * 1,
       b.edge2.midpoint.y - b.edge1.midpoint.y + b.edge2.normal.y * 1⟩ b.edge1,
    List.mem_map_of_mem _ m1, b.edge2, m2, ?_, ?_⟩
  · rw [hdist]
    norm_num
  · unfold areEdgesCompatible at mc ⊢
    dsimp only at mc ⊢
    obtain ⟨g1, g2, g3, g4⟩ := mc
    refine ⟨?_, ?_, ?_, ?_⟩
    · unfold translateEdge
      dsimp only
      exact g1
    · rw [hdist]
      norm_num
    · unfold translateEdge
      dsimp only
      exact g3
    · unfold translateEdge translatePoint
      dsimp only
      rw [show b.edge1.endp.x +
          (b.edge2.midpoint.x - b.edge1.midpoint.x + b.edge2.normal.x * 1) -
          (b.edge1.start.x +
            (b.edge2.midpoint.x - b.edge1.midpoint.x + b.edge2.normal.x * 1)) =
          b.edge1.endp.x - b.edge1.start.x from by ring,
        show b.edge1.endp.y +
          (b.edge2.midpoint.y - b.edge1.midpoint.y + b.edge2.normal.y * 1) -
          (b.edge1.start.y +
            (b.edge2.midpoint.y - b.edge1.midpoint.y + b.edge2.normal.y * 1)) =
          b.edge1.endp.y - b.edge1.start.y from by ring]
      exact g4

/-- Witness for C2 at the concrete square pair of C1: the snap succeeds
at `(309, 300)` and the translated tile is adjacent-and-compatible. -/
theorem snap_moves_to_adjacency_witness :
    canTilesSnap ⟨"A", ShapeType.square, 300, 300, 0, "c", Option.none, Option.none⟩
      ⟨"B", ShapeType.square, 360, 300, 0, "c", Option.none, Option.none⟩ =
      ⟨true, some ⟨309, 300⟩⟩ ∧
    ∃ e1 ∈ getShapeEdges
        { (⟨"A", ShapeType.square, 300, 300, 0, "c", Option.none, Option.none⟩ : Tile) with
          x := ((⟨309, 300⟩ : Point)).x, y := ((⟨309, 300⟩ : Point)).y },
      ∃ e2 ∈ getShapeEdges
        ⟨"B", ShapeType.square, 360, 300, 0, "c", Option.none, Option.none⟩,
        edgeDistance e1 e2 ≤ 1.5 ∧ areEdgesCompatible e1 e2 :=
  ⟨snap_squares_eval,
    snap_moves_to_adjacency
      ⟨"A", ShapeType.square, 300, 300, 0, "c", Option.none, Option.none⟩
      ⟨"B", ShapeType.square, 360, 300, 0, "c", Option.none, Option.none⟩
      ⟨309, 300⟩ snap_squares_eval⟩

end Tess
